import Mathlib

/-!
# Verification of the EventScout recommendation pipeline

Shallow embedding of the core logic of the `event-recommendor` repository:

* `agents/recommendation_agent.py` — the judge-response sanitizer
  (`_parse_scores_json`), the scoring-prompt builder and the
  ranking/merging pipeline (`run_recommendation_agent`);
* `agents/qa_agent.py` — the QA orchestrator (`run_qa_agent`);
* `api/routes/recommend.py` and `app.py` — the two consumer-facing
  entry points.

Python strings are modelled as `List Char` / `String`, Python floats as
`Rat` (exact decimal arithmetic; the claims under study never depend on
binary rounding), Python dicts as insertion-ordered association lists
with overwrite-in-place semantics, raised exceptions as `Except String`,
and JSON values as the inductive `Json` below (numbers keep their
literal spelling, so no float semantics are needed to compare parses).
-/

namespace EventScout

/-! ## Python character / string primitives -/

/-- Python's `\s` (and `str.strip()` default set restricted to ASCII):
space, tab, newline, carriage return, vertical tab, form feed. -/
def isPyWs (c : Char) : Bool :=
  c = ' ' || c = '\t' || c = '\n' || c = '\r' || c = '\x0b' || c = '\x0c'

/-- `str.strip()` on a char list. -/
def pyStrip (cs : List Char) : List Char :=
  ((cs.dropWhile isPyWs).reverse.dropWhile isPyWs).reverse

/-! ## The judge-response sanitizer (`_parse_scores_json`), step by step -/

/-- Step 1a, `re.sub(r"^```(?:json)?\s*", "", raw.strip())`: the regex is
anchored at the start, tries the greedy `json` branch first, then eats
following whitespace. -/
def stripLeadingFence (cs : List Char) : List Char :=
  if cs.take 7 = ['`', '`', '`', 'j', 's', 'o', 'n'] then
    (cs.drop 7).dropWhile isPyWs
  else if cs.take 3 = ['`', '`', '`'] then
    (cs.drop 3).dropWhile isPyWs
  else cs

/-- Step 1b, `re.sub(r"\s*```$", "", raw)`: removes a final ```` ``` ````
together with the whitespace run before it.  In the sanitizer this is
applied to a string produced by `str.strip()` (whose result never ends
in whitespace), for which removing the suffix match is exactly the
regex's single anchored substitution. -/
def stripTrailingFence (cs : List Char) : List Char :=
  if cs.reverse.take 3 = ['`', '`', '`'] then
    ((cs.reverse.drop 3).dropWhile isPyWs).reverse
  else cs

/-- `str.find(c)`: index of the first occurrence. -/
def firstIdxOf (c : Char) : List Char → Option Nat
  | [] => none
  | d :: t => if d = c then some 0 else (firstIdxOf c t).map (· + 1)

/-- `str.rfind(c)`: index of the last occurrence. -/
def lastIdxOf (c : Char) (cs : List Char) : Option Nat :=
  (firstIdxOf c cs.reverse).map (fun i => cs.length - 1 - i)

/-- Matcher for the tail of `re.sub(r",\s*\{[^}]*$", "", raw)`: after the
comma, optional whitespace, then `{`, then no `}` up to the end. -/
def hasOpenBraceNoClose (rest : List Char) : Bool :=
  match rest.dropWhile isPyWs with
  | '{' :: tail => ! tail.contains '}'
  | _ => false

/-- Step 3a, `re.sub(r",\s*\{[^}]*$", "", raw)`: drop, from the leftmost
comma that starts an unterminated `{...}` reaching the end, everything
to the end (the match necessarily extends to `$`, so the substitution
deletes the suffix). -/
def dropIncompleteTail : List Char → List Char
  | [] => []
  | ',' :: rest =>
    if hasOpenBraceNoClose rest then [] else ',' :: dropIncompleteTail rest
  | c :: rest => c :: dropIncompleteTail rest

/-- Step 3b, `raw.rstrip(", \n")`: strip trailing commas, spaces and
newlines. -/
def rstripSep (cs : List Char) : List Char :=
  (cs.reverse.dropWhile (fun c => c = ',' || c = ' ' || c = '\n')).reverse

/-- One comma-repair probe: does the text after a comma consist of
whitespace followed by `}` or `]`?  Returns the closing char and the
remainder after it. -/
def commaCloseSplit (rest : List Char) : Option (Char × List Char) :=
  match rest.dropWhile isPyWs with
  | c :: tail => if c = '}' || c = ']' then some (c, tail) else none
  | [] => none

/-- Fuelled worker for step 4 (fuel-structural recursion, so that the
kernel can evaluate it on concrete text; one unit of fuel per emitted
character is enough because every step consumes at least one input
character). -/
def removeTrailingCommasF : Nat → List Char → List Char
  | 0, cs => cs
  | _ + 1, [] => []
  | fuel + 1, c :: rest =>
    if c = ',' then
      match commaCloseSplit rest with
      | some (cl, tail) => cl :: removeTrailingCommasF fuel tail
      | none => ',' :: removeTrailingCommasF fuel rest
    else c :: removeTrailingCommasF fuel rest

/-- Step 4, `re.sub(r",\s*([}\]])", r"\1", raw)`: left-to-right,
non-overlapping removal of every comma that directly (modulo
whitespace) precedes a `}` or `]` (the whitespace run is part of the
match, so it is removed as well). -/
def removeTrailingCommas (cs : List Char) : List Char :=
  removeTrailingCommasF cs.length cs

/-- Step 2/3 of `_parse_scores_json`: slice to the `[...]` span when the
last `]` lies after the first `[`; otherwise, when a `[` exists, drop
an incomplete trailing object, strip trailing separators and close the
array; otherwise leave the text alone. -/
def repairSlice (cs : List Char) : List Char :=
  match firstIdxOf '[' cs, lastIdxOf ']' cs with
  | some s, some e =>
    if s < e then (cs.drop s).take (e + 1 - s)
    else rstripSep (dropIncompleteTail (cs.drop s)) ++ [']']
  | some s, none => rstripSep (dropIncompleteTail (cs.drop s)) ++ [']']
  | none, _ => cs

/-- The text-repair part of `_parse_scores_json` (everything before
`json.loads`): strip code fences, slice to the bracketed span or close
off a truncated array, then remove trailing commas. -/
def repairJsonText (cs0 : List Char) : List Char :=
  removeTrailingCommas
    (repairSlice (pyStrip (stripTrailingFence (stripLeadingFence (pyStrip cs0)))))

/-! ## JSON values and a model of `json.loads` -/

/-- JSON values.  Numbers keep their literal spelling (so two parses are
equal exactly when the texts carry the same literal) and objects keep
their fields in textual order; `json.loads`'s duplicate-key and
conversion behaviour is modelled at the access points. -/
inductive Json where
  | null : Json
  | bool : Bool → Json
  | num : String → Json
  | str : String → Json
  | arr : List Json → Json
  | obj : List (String × Json) → Json

mutual

def Json.beq : Json → Json → Bool
  | .null, .null => true
  | .bool a, .bool b => a = b
  | .num a, .num b => a = b
  | .str a, .str b => a = b
  | .arr a, .arr b => Json.beqList a b
  | .obj a, .obj b => Json.beqFields a b
  | _, _ => false

def Json.beqList : List Json → List Json → Bool
  | [], [] => true
  | x :: xs, y :: ys => Json.beq x y && Json.beqList xs ys
  | _, _ => false

def Json.beqFields : List (String × Json) → List (String × Json) → Bool
  | [], [] => true
  | (k, v) :: xs, (k', v') :: ys => k = k' && Json.beq v v' && Json.beqFields xs ys
  | _, _ => false

end

/- `Json.beq_iff` (the proof that `Json.beq` decides equality) and the
resulting `DecidableEq Json` instance live in the proof part of this
file; the embedding itself uses `Json.beq` wherever Python compares
parsed values. -/

/-- JSON's whitespace set (what Python's `json` scanner skips). -/
def isJsonWs (c : Char) : Bool :=
  c = ' ' || c = '\t' || c = '\n' || c = '\r'

def hexVal (c : Char) : Option Nat :=
  if '0' ≤ c ∧ c ≤ '9' then some (c.toNat - 48)
  else if 'a' ≤ c ∧ c ≤ 'f' then some (c.toNat - 87)
  else if 'A' ≤ c ∧ c ≤ 'F' then some (c.toNat - 55)
  else none

/-- Body of a JSON string token (after the opening quote): returns the
decoded characters and the input after the closing quote.  Control
characters are rejected (strict mode, the `json.loads` default). -/
def parseStrBody : List Char → Option (List Char × List Char)
  | [] => none
  | '"' :: rest => some ([], rest)
  | '\\' :: e :: rest =>
    match e with
    | '"' => (parseStrBody rest).map (fun p => ('"' :: p.1, p.2))
    | '\\' => (parseStrBody rest).map (fun p => ('\\' :: p.1, p.2))
    | '/' => (parseStrBody rest).map (fun p => ('/' :: p.1, p.2))
    | 'b' => (parseStrBody rest).map (fun p => ('\x08' :: p.1, p.2))
    | 'f' => (parseStrBody rest).map (fun p => ('\x0c' :: p.1, p.2))
    | 'n' => (parseStrBody rest).map (fun p => ('\n' :: p.1, p.2))
    | 'r' => (parseStrBody rest).map (fun p => ('\r' :: p.1, p.2))
    | 't' => (parseStrBody rest).map (fun p => ('\t' :: p.1, p.2))
    | 'u' =>
      match rest with
      | a :: b :: c :: d :: rest' =>
        match hexVal a, hexVal b, hexVal c, hexVal d with
        | some x, some y, some z, some w =>
          let n := ((x * 16 + y) * 16 + z) * 16 + w
          if n < 1114112 ∧ (n < 55296 ∨ 57343 < n) then
            (parseStrBody rest').map (fun p => (Char.ofNat n :: p.1, p.2))
          else none
        | _, _, _, _ => none
      | _ => none
    | _ => none
  | c :: rest =>
    if c.toNat < 32 then none
    else (parseStrBody rest).map (fun p => (c :: p.1, p.2))

/-- Fraction-and-exponent tail of a JSON number literal
(`(\.\d+)?([eE][+-]?\d+)?`); `acc` is the literal so far. -/
def parseFracExp (acc : List Char) (cs : List Char) : Option (List Char × List Char) :=
  let (acc1, cs1) :=
    match cs with
    | '.' :: r =>
      let ds := r.takeWhile Char.isDigit
      if ds = [] then (acc, cs) else (acc ++ '.' :: ds, r.dropWhile Char.isDigit)
    | _ => (acc, cs)
  if cs1.length < cs.length ∨ cs.head? ≠ some '.' then
    match cs1 with
    | e :: r =>
      if e = 'e' ∨ e = 'E' then
        let (sgn, r1) :=
          match r with
          | '+' :: r' => (['+'], r')
          | '-' :: r' => (['-'], r')
          | _ => (([] : List Char), r)
        let ds := r1.takeWhile Char.isDigit
        if ds = [] then some (acc1, cs1)
        else some (acc1 ++ e :: sgn ++ ds, r1.dropWhile Char.isDigit)
      else some (acc1, cs1)
    | [] => some (acc1, cs1)
  else some (acc1, cs1)

/-- A JSON number token, per the `json` module's regex
`-?(0|[1-9]\d*)(\.\d+)?([eE][+-]?\d+)?`: returns the literal and the
rest of the input. -/
def parseNumberToken (cs : List Char) : Option (List Char × List Char) :=
  let (sign, cs1) :=
    match cs with
    | '-' :: r => ((['-'] : List Char), r)
    | _ => (([] : List Char), cs)
  match cs1 with
  | '0' :: r => parseFracExp (sign ++ ['0']) r
  | c :: r =>
    if c.isDigit ∧ c ≠ '0' then
      parseFracExp (sign ++ c :: r.takeWhile Char.isDigit) (r.dropWhile Char.isDigit)
    else none
  | [] => none

mutual

/-- Recursive-descent JSON value parser (model of `json.loads`'s
scanner), fuelled; `pyJsonLoads` supplies enough fuel for any input.
The scanner's default `NaN`/`Infinity`/`-Infinity` constants are
accepted and kept as `Json.num` literals, converted by `pyFloat` at the
access points like every other number. -/
def parseValue : Nat → List Char → Option (Json × List Char)
  | 0, _ => none
  | fuel + 1, cs0 =>
    match cs0.dropWhile isJsonWs with
    | 'n' :: 'u' :: 'l' :: 'l' :: r => some (.null, r)
    | 't' :: 'r' :: 'u' :: 'e' :: r => some (.bool true, r)
    | 'f' :: 'a' :: 'l' :: 's' :: 'e' :: r => some (.bool false, r)
    | 'N' :: 'a' :: 'N' :: r => some (.num "NaN", r)
    | 'I' :: 'n' :: 'f' :: 'i' :: 'n' :: 'i' :: 't' :: 'y' :: r =>
      some (.num "Infinity", r)
    | '-' :: 'I' :: 'n' :: 'f' :: 'i' :: 'n' :: 'i' :: 't' :: 'y' :: r =>
      some (.num "-Infinity", r)
    | '"' :: r => (parseStrBody r).map (fun p => (.str (String.mk p.1), p.2))
    | '[' :: r =>
      (match r.dropWhile isJsonWs with
       | ']' :: r' => some (.arr [], r')
       | _ => (parseItems fuel r).map (fun p => (.arr p.1, p.2)))
    | '{' :: r =>
      (match r.dropWhile isJsonWs with
       | '}' :: r' => some (.obj [], r')
       | _ => (parseFields fuel r).map (fun p => (.obj p.1, p.2)))
    | cs => (parseNumberToken cs).map (fun p => (.num (String.mk p.1), p.2))

/-- Comma-separated array items up to the closing `]`. -/
def parseItems : Nat → List Char → Option (List Json × List Char)
  | 0, _ => none
  | fuel + 1, cs =>
    match parseValue fuel cs with
    | none => none
    | some (v, rest) =>
      match rest.dropWhile isJsonWs with
      | ']' :: r => some ([v], r)
      | ',' :: r =>
        (parseItems fuel r).map (fun p => (v :: p.1, p.2))
      | _ => none

/-- Comma-separated `"key": value` pairs up to the closing `}`. -/
def parseFields : Nat → List Char → Option (List (String × Json) × List Char)
  | 0, _ => none
  | fuel + 1, cs =>
    match cs.dropWhile isJsonWs with
    | '"' :: r =>
      match parseStrBody r with
      | none => none
      | some (key, rest) =>
        match rest.dropWhile isJsonWs with
        | ':' :: r2 =>
          match parseValue fuel r2 with
          | none => none
          | some (v, rest2) =>
            match rest2.dropWhile isJsonWs with
            | '}' :: r3 => some ([(String.mk key, v)], r3)
            | ',' :: r3 =>
              (parseFields fuel r3).map (fun p => ((String.mk key, v) :: p.1, p.2))
            | _ => none
        | _ => none
    | _ => none

end

/-- `json.loads` on a char list: parse one value, allow only trailing
whitespace.  `none` models a raised `json.JSONDecodeError`. -/
def pyJsonLoads (cs : List Char) : Option Json :=
  match parseValue (2 * cs.length + 2) cs with
  | some (v, rest) => if rest.dropWhile isJsonWs = [] then some v else none
  | none => none

/-- `_parse_scores_json` (recommendation_agent.py lines 49–69): text
repair followed by `json.loads`; `none` models the uncaught
`JSONDecodeError` the caller turns into the scoring fallback. -/
def parseScoresJson (s : String) : Option Json :=
  pyJsonLoads (repairJsonText s.data)

/-! ## A textual form for JSON values, and the wrapping of claim C1

`render` produces the compact serialization (`json.dumps`-style
escaping, no whitespace outside string literals); `wrapJudge` performs
exactly the wrapping the spec describes: markdown code fence plus a
trailing comma inserted before the closing `]`. -/

def hexDigit (n : Nat) : Char :=
  if n < 10 then Char.ofNat (48 + n) else Char.ofNat (87 + n)

def escapeChar (c : Char) : List Char :=
  if c = '"' then ['\\', '"']
  else if c = '\\' then ['\\', '\\']
  else if c = '\n' then ['\\', 'n']
  else if c = '\r' then ['\\', 'r']
  else if c = '\t' then ['\\', 't']
  else if c = '\x08' then ['\\', 'b']
  else if c = '\x0c' then ['\\', 'f']
  else if c.toNat < 32 then
    ['\\', 'u', '0', '0', hexDigit (c.toNat / 16), hexDigit (c.toNat % 16)]
  else [c]

def renderString (s : String) : List Char :=
  '"' :: (s.data.map escapeChar).flatten ++ ['"']

mutual

def render : Json → List Char
  | .null => "null".data
  | .bool true => "true".data
  | .bool false => "false".data
  | .num lit => lit.data
  | .str s => renderString s
  | .arr [] => ['[', ']']
  | .arr (x :: xs) => '[' :: (render x ++ renderTail xs) ++ [']']
  | .obj [] => ['{', '}']
  | .obj ((k, v) :: ps) =>
    '{' :: (renderString k ++ ':' :: render v ++ renderFTail ps) ++ ['}']

def renderTail : List Json → List Char
  | [] => []
  | x :: xs => ',' :: render x ++ renderTail xs

def renderFTail : List (String × Json) → List Char
  | [] => []
  | (k, v) :: ps => ',' :: renderString k ++ ':' :: render v ++ renderFTail ps

end

/-- The wrapping described by the spec's round-trip property: the text
in a ```` ```json ```` fence, with a trailing comma inserted before the
(final) closing `]`. -/
def wrapJudge (t : String) : String :=
  "```json\n" ++ String.mk t.data.dropLast ++ ",]\n```"

/-! ## Comma-safety: which texts the trailing-comma repair leaves alone -/

def closeChar (c : Char) : Bool := c = '}' || c = ']'

/-- Every comma in the text is followed, within the text and after
optional whitespace, by a character that is not `}` or `]` — so the
trailing-comma substitution finds no match inside it, even when more
text is appended. -/
def bodySafe : List Char → Bool
  | [] => true
  | c :: rest =>
    (if c = ',' then
      match rest.dropWhile isPyWs with
      | c' :: _ => ! closeChar c'
      | [] => false
     else true) && bodySafe rest

/-- Nonempty and starting with a non-whitespace, non-closing
character (true of every rendered JSON value). -/
def headedOk : List Char → Bool
  | c :: _ => ! (isPyWs c || closeChar c)
  | [] => false

def numLitChar (c : Char) : Bool :=
  c.isDigit || c = '-' || c = '+' || c = '.' || c = 'e' || c = 'E'

/-- A plausible number literal: nonempty, made only of digits, sign,
dot and exponent characters (in particular no comma, bracket,
whitespace or backtick). -/
def numLitOk (lit : String) : Bool :=
  !lit.data.isEmpty && lit.data.all numLitChar

mutual

/-- The side condition of the amended claim C1: every number literal is
well-formed and every string (key or value) renders without a comma
that is followed, after optional whitespace, by `}` or `]`. -/
def cleanJson : Json → Bool
  | .null => true
  | .bool _ => true
  | .num lit => numLitOk lit
  | .str s => bodySafe (renderString s)
  | .arr l => cleanList l
  | .obj ps => cleanFields ps

def cleanList : List Json → Bool
  | [] => true
  | x :: xs => cleanJson x && cleanList xs

def cleanFields : List (String × Json) → Bool
  | [] => true
  | (k, v) :: ps => bodySafe (renderString k) && cleanJson v && cleanFields ps

end

/-! ## Python floats

A Python `float` is a finite value (modelled exactly as a rational),
one of the infinities, or `nan`.  `json.loads` produces `nan`/`inf`
values from its default `NaN`/`Infinity`/`-Infinity` constants, and
`float("nan")`/`float("inf")` succeed, so these values can reach
`relevance_score` and the sort.  `lt`/`le` follow IEEE-754: every
comparison with `nan` is false. -/

inductive PyFloat where
  | nan : PyFloat
  | inf : PyFloat
  | ninf : PyFloat
  | fin : Rat → PyFloat
deriving DecidableEq

/-- IEEE `<` on Python floats: false whenever either side is `nan`. -/
def PyFloat.lt : PyFloat → PyFloat → Bool
  | .nan, _ => false
  | _, .nan => false
  | .inf, _ => false
  | .ninf, .ninf => false
  | .ninf, _ => true
  | .fin _, .inf => true
  | .fin _, .ninf => false
  | .fin a, .fin b => decide (a < b)

/-- IEEE `≤` on Python floats: false whenever either side is `nan`. -/
def PyFloat.le : PyFloat → PyFloat → Bool
  | .nan, _ => false
  | _, .nan => false
  | .ninf, _ => true
  | _, .inf => true
  | .inf, _ => false
  | .fin _, .ninf => false
  | .fin a, .fin b => decide (a ≤ b)

/-! ## Data model (models/schemas.py, plus the fields the agents read)

`app.py` constructs `UserRequest` with `venue_preference` and
`vibe_notes`, and `events_agent.py` constructs `EventResult` with
`description`; the agents read those attributes, so they are part of
the de-facto data model and are included here.  Dates are modelled as
ordinals (`Nat`), since the core only ever compares them and prints
them; floats that only ever carry parsed API numbers are modelled as
exact rationals, while `relevance_score` — which receives whatever
`float(...)` makes of the judge's reply — is a full `PyFloat`. -/

structure UserRequest where
  city : String
  state_code : Option String
  country_code : String
  start_date : Nat
  end_date : Nat
  event_description : String
  venue_preference : String
  vibe_notes : String
  budget_max : Option Rat
deriving DecidableEq

structure EventResult where
  event_id : String
  event_name : String
  description : String
  date : String
  time : String
  venue_name : String
  venue_address : String
  venue_city : String
  venue_state : String
  venue_latitude : Rat
  venue_longitude : Rat
  price_min : Rat
  price_max : Rat
  category : String
  genre : String
  url : String
  image_url : String
  is_weekend : Bool
  is_outdoor : Bool
deriving DecidableEq

structure EventAgentOutput where
  request : UserRequest
  events : List EventResult
  total_found : Nat
  error : Option String
deriving DecidableEq

structure DailyForecast where
  date : String
  temp_min_f : Rat
  temp_max_f : Rat
  description : String
  precipitation_chance : Rat
  wind_speed_mph : Rat
  is_suitable_outdoor : Bool
deriving DecidableEq

/-- `forecasts` is a Python dict keyed by date string, modelled as an
insertion-ordered association list. -/
structure WeatherAgentOutput where
  city : String
  forecasts : List (String × DailyForecast)
  error : Option String
deriving DecidableEq

structure ScoredEvent where
  event : EventResult
  weather : Option DailyForecast
  relevance_score : PyFloat
  score_reason : String
deriving DecidableEq

structure RecommendationAgentOutput where
  request : UserRequest
  recommendations : List ScoredEvent
deriving DecidableEq

structure QAMessage where
  role : String
  content : String
deriving DecidableEq

structure QARequest where
  recommendations : RecommendationAgentOutput
  conversation_history : List QAMessage
  user_question : String
deriving DecidableEq

structure QAResponse where
  answer : String
  updated_history : List QAMessage
deriving DecidableEq

/-! ## Python dict / slicing / formatting primitives -/

/-- `dict.get(k)` on a string-keyed dict. -/
def pyDictGet {β : Type} (d : List (String × β)) (k : String) : Option β :=
  (d.find? (fun p => p.1 == k)).map (·.2)

/-- `d[k] = v`: overwrite in place (CPython keeps the key's original
position), else append. -/
def pyDictInsert {β : Type} (d : List (String × β)) (k : String) (v : β) :
    List (String × β) :=
  if d.any (fun p => p.1 == k) then
    d.map (fun p => if p.1 == k then (p.1, v) else p)
  else d ++ [(k, v)]

/-- `dict.get` on a dict whose keys are parsed JSON values (Python `==`
on the keys is `Json.beq`). -/
def jdictGet (d : List (Json × Json)) (k : Json) : Option Json :=
  (d.find? (fun p => Json.beq p.1 k)).map (·.2)

def jdictInsert (d : List (Json × Json)) (k : Json) (v : Json) :
    List (Json × Json) :=
  if d.any (fun p => Json.beq p.1 k) then
    d.map (fun p => if Json.beq p.1 k then (p.1, v) else p)
  else d ++ [(k, v)]

/-- Python `l[:k]` (a negative `k` counts from the end). -/
def pySlice {α : Type} (k : Int) (l : List α) : List α :=
  if 0 ≤ k then l.take k.toNat else l.take (l.length - (-k).toNat)

/-- Banker's rounding to an integer, as used by `format(x, ".0f")`. -/
def roundHalfEven (q : Rat) : Int :=
  let f := q.floor
  let r := q - (f : Rat)
  if r < 1 / 2 then f
  else if 1 / 2 < r then f + 1
  else if f % 2 = 0 then f else f + 1

/-- `f"{x:.0f}"`. -/
def formatF0 (q : Rat) : String := toString (roundHalfEven q)

/-- `f"{x}"` on a Python float; exact for integral values (the only
formatting subtlety any claim could touch), approximated by the
rational's own representation otherwise. -/
def pyFloatRepr (q : Rat) : String :=
  if q.den = 1 then toString q.num ++ ".0" else toString q

/-- `f"{x}"` on a full Python float, special values included. -/
def pyFRepr : PyFloat → String
  | .nan => "nan"
  | .inf => "inf"
  | .ninf => "-inf"
  | .fin q => pyFloatRepr q

/-- `f"{b}"` on a Python bool. -/
def pyBoolStr (b : Bool) : String := if b then "True" else "False"

/-! ## Number conversion (`float(...)`) -/

def digitsToNat (ds : List Char) : Nat :=
  ds.foldl (fun n c => 10 * n + (c.toNat - 48)) 0

/-- Exact value of a decimal literal (optional sign, digits, optional
fraction, optional exponent), assembled with `mkRat` over integer
arithmetic so that concrete literals evaluate inside the kernel. -/
def parseNumLit (s : String) : Option Rat :=
  let p : Bool × List Char :=
    match s.data with
    | '-' :: r => (true, r)
    | '+' :: r => (false, r)
    | cs => (false, cs)
  let neg := p.1
  let cs := p.2
  let mant := cs.takeWhile (fun c => !(c = 'e' || c = 'E'))
  let erest := cs.dropWhile (fun c => !(c = 'e' || c = 'E'))
  let intDs := mant.takeWhile Char.isDigit
  let dotrest := mant.dropWhile Char.isDigit
  let fracDs : Option (List Char) :=
    match dotrest with
    | [] => some []
    | '.' :: r => if r.all Char.isDigit then some r else none
    | _ => none
  let expVal : Option Int :=
    match erest with
    | [] => some 0
    | _ :: r =>
      match r with
      | '+' :: ds =>
        if !ds.isEmpty && ds.all Char.isDigit then some (digitsToNat ds) else none
      | '-' :: ds =>
        if !ds.isEmpty && ds.all Char.isDigit then some (-(digitsToNat ds : Int)) else none
      | ds =>
        if !ds.isEmpty && ds.all Char.isDigit then some (digitsToNat ds) else none
  match fracDs, expVal with
  | some fr, some e =>
    if intDs.isEmpty && fr.isEmpty then none
    else
      let m : Int := digitsToNat (intDs ++ fr)
      let m' : Int := if neg then -m else m
      let shift : Int := e - fr.length
      if 0 ≤ shift then some (mkRat (m' * (10 : Int) ^ shift.toNat) 1)
      else some (mkRat m' ((10 : Nat) ^ (-shift).toNat))
  | _, _ => none

def asciiLower (c : Char) : Char :=
  if 'A' ≤ c ∧ c ≤ 'Z' then Char.ofNat (c.toNat + 32) else c

/-- PEP 515: every underscore in a numeric literal must have a digit on
both sides. `prev` is the character before the rest of the scan. -/
def usAfter : Char → List Char → Bool
  | _, [] => true
  | prev, c :: rest =>
    if c = '_' then
      (prev.isDigit && (match rest with | d :: _ => d.isDigit | [] => false))
        && usAfter c rest
    else usAfter c rest

def usValid : List Char → Bool
  | [] => true
  | c :: rest => (c != '_') && usAfter c rest

/-- Python `float(str)` on an already-stripped character list: the
case-insensitive `nan` / `inf` / `infinity` words (with optional
sign), or a decimal literal, possibly with PEP-515 underscores. -/
def pyFloatOfChars (cs0 : List Char) : Option PyFloat :=
  let p : Bool × List Char :=
    match cs0 with
    | '-' :: r => (true, r)
    | '+' :: r => (false, r)
    | cs => (false, cs)
  let low := p.2.map asciiLower
  if low = "nan".data then some .nan
  else if low = "inf".data ∨ low = "infinity".data then
    some (if p.1 then .ninf else .inf)
  else if usValid cs0 then
    (parseNumLit (String.mk (cs0.filter (fun c => c ≠ '_')))).map .fin
  else none

/-- Python `float(x)` applied to a parsed JSON value; `.error` models
the raised `TypeError` / `ValueError`.  On a number, `json.loads` has
already produced the float (`NaN` / `Infinity` literals included), so
the conversion is the identity and never raises; on a string, `float`
strips whitespace and accepts `nan` / `inf` words and underscored
literals. -/
def pyFloat : Json → Except String PyFloat
  | .num lit =>
    match pyFloatOfChars lit.data with
    | some v => .ok v
    | none => .error "ValueError"
  | .bool b => .ok (.fin (if b then 1 else 0))
  | .str s =>
    match pyFloatOfChars (pyStrip s.data) with
    | some v => .ok v
    | none => .error "ValueError"
  | _ => .error "TypeError"

/-- Subscript / `.get` on a parsed JSON object: `json.loads` keeps the
last of duplicate keys, so lookup takes the last occurrence. -/
def jsonObjGet (fields : List (String × Json)) (key : String) : Option Json :=
  (fields.reverse.find? (fun p => p.1 == key)).map (·.2)

/-! ## The recommendation agent (`run_recommendation_agent`) -/

def LLM_EVENT_LIMIT : Nat := 50

/-- `_build_event_summary` (recommendation_agent.py lines 26–46). -/
def buildEventSummary (event : EventResult) (weather : Option DailyForecast) : String :=
  let price_str :=
    if event.price_min ≠ 0 ∨ event.price_max ≠ 0 then
      "$" ++ formatF0 event.price_min ++ "-$" ++ formatF0 event.price_max
    else "Free/Unknown"
  let weather_str :=
    match weather with
    | some w =>
      w.description ++ ", " ++ formatF0 w.temp_min_f ++ "-" ++ formatF0 w.temp_max_f ++
      "F, rain " ++ formatF0 w.precipitation_chance ++ "%, outdoor_ok=" ++
      pyBoolStr w.is_suitable_outdoor
    | none => "No forecast"
  let description_str :=
    if event.description ≠ "" then String.mk (pyStrip event.description.data)
    else "No description available"
  "ID: " ++ event.event_id ++ "\n" ++
  "Name: " ++ event.event_name ++ "\n" ++
  "Description: " ++ description_str ++ "\n" ++
  "Date: " ++ event.date ++ " (" ++ (if event.is_weekend then "Weekend" else "Weekday") ++
  ") @ " ++ event.time ++ "\n" ++
  "Venue: " ++ event.venue_name ++ " (" ++ (if event.is_outdoor then "Outdoor" else "Indoor") ++
  ")\n" ++
  "Category: " ++ event.category ++ " / " ++ event.genre ++ "\n" ++
  "Price: " ++ price_str ++ "\n" ++
  "Weather: " ++ weather_str

/-- The per-candidate prompt blocks: one `_build_event_summary` per
candidate, with the forecast looked up by the event's date. -/
def scoringEventBlocks (candidates : List EventResult)
    (forecasts : List (String × DailyForecast)) : List String :=
  candidates.map fun e => buildEventSummary e (pyDictGet forecasts e.date)

def scoringEventsText (candidates : List EventResult)
    (forecasts : List (String × DailyForecast)) : String :=
  String.intercalate "\n\n---\n\n" (scoringEventBlocks candidates forecasts)

/-- The fixed system message of the scoring call (recommendation_agent.py
lines 99–149). -/
def scoringSystemMsg : String :=
  "You are an expert event recommendation engine for EventScout. " ++
  "Your job is to score how well each event matches what the user is looking for.\n\n" ++
  "SCORING FACTORS (in order of importance):\n" ++
  "1. Semantic match between user\x27s request and event name/description/genre — this is by far the most important factor\n" ++
  "2. Price fit within budget\n" ++
  "3. Timing (weekday vs weekend)\n" ++
  "4. Venue type (indoor/outdoor) — minor factor only, max -5 points even if user prefers outdoor\n\n" ++
  "VENUE/WEATHER GUIDANCE:\n" ++
  "- Venue type (indoor vs outdoor) is a MINOR preference, not a requirement. " ++
  "Never subtract more than 5 points for a venue type mismatch.\n" ++
  "- A highly relevant indoor event should still score 80+ even if the user mentioned outdoor vibes.\n" ++
  "- Only apply a weather penalty (-5 to -10) if the event is outdoor AND the forecast is clearly bad (heavy rain, storm).\n" ++
  "- Never let venue type or weather alone dominate the score.\n\n" ++
  "SCORING EXAMPLES:\n\n" ++
  "EXAMPLE 1 — Perfect match:\n" ++
  "User wants: \x27jazz music weekend\x27, Vibe: \x27chill date night\x27\n" ++
  "Event: \x27Birdland Jazz Club - Friday Night Jazz\x27 | Music/Jazz | Indoor | Friday\n" ++
  "Score: 92 | Reason: Jazz genre matches exactly, chill indoor venue suits date night vibe.\n\n" ++
  "EXAMPLE 2 — Good match, minor venue mismatch:\n" ++
  "User wants: \x27live rock concert\x27, Vibe: \x27outdoor vibes\x27\n" ++
  "Event: \x27Beauty School Dropout\x27 | Music/Rock | Indoor | Saturday\n" ++
  "Score: 82 | Reason: Rock concert matches the request well; indoor venue is a slight mismatch with outdoor preference (-5).\n\n" ++
  "EXAMPLE 3 — Wrong category:\n" ++
  "User wants: \x27jazz music\x27, Vibe: \x27casual\x27\n" ++
  "Event: \x27Yankees vs Red Sox\x27 | Sports | Outdoor | Saturday\n" ++
  "Score: 8 | Reason: Sports event completely unrelated to jazz music request.\n\n" ++
  "EXAMPLE 4 — Outdoor event + bad weather (gentle penalty):\n" ++
  "User wants: \x27outdoor festival\x27, Vibe: \x27outdoor vibes\x27\n" ++
  "Event: \x27Summer Music Festival\x27 | Music | Outdoor | Saturday | Weather: Heavy rain, outdoor_ok=False\n" ++
  "Score: 62 | Reason: Festival matches request well but heavy rain is a concern for outdoor attendance (-8).\n\n" ++
  "EXAMPLE 5 — Budget mismatch:\n" ++
  "User wants: \x27live music\x27, Budget: $30\n" ++
  "Event: \x27Coldplay World Tour\x27 | Music/Rock | Indoor | Saturday | Price: $150-$300\n" ++
  "Score: 20 | Reason: Music matches but price ($150-$300) far exceeds $30 budget.\n\n" ++
  "SCORING GUIDANCE FOR SPARSE DATA:\n" ++
  "If an event\x27s description is missing or minimal, score based on its name, category, and genre alone. " ++
  "Do NOT default to 50 just because data is sparse — make your best inference. " ++
  "Only score 50 when the event is genuinely ambiguous and could plausibly be a partial match.\n\n" ++
  "Respond with ONLY a valid JSON array. No prose, no markdown, no code fences."

/-- `budget_str` (line 97): Python float formatting behind a truthiness
test, so a zero or absent budget reads "No limit". -/
def budgetStr (budget_max : Option Rat) : String :=
  match budget_max with
  | some b => if b ≠ 0 then "$" ++ pyFloatRepr b else "No limit"
  | none => "No limit"

/-- The user message of the scoring call (lines 150–163). -/
def scoringUserMsg (request : UserRequest) (numCandidates : Nat)
    (events_text : String) : String :=
  "User is looking for: \"" ++ request.event_description ++ "\"\n" ++
  "Venue preference: " ++ request.venue_preference ++ "\n" ++
  "Vibe & extra preferences: " ++
  (if request.vibe_notes ≠ "" then request.vibe_notes else "(none)") ++ "\n" ++
  "Budget max: " ++ budgetStr request.budget_max ++ "\n" ++
  "Date range: " ++ toString request.start_date ++ " to " ++ toString request.end_date ++ "\n\n" ++
  "Score each of the following " ++ toString numCandidates ++
  " events based on how well they match. " ++
  "Apply the WEATHER SCORING RULES strictly based on the venue preference \x27" ++
  request.venue_preference ++ "\x27.\n\n" ++
  events_text ++ "\n\n" ++
  "Respond with ONLY this JSON array:\n" ++
  "[\x7b\"event_id\": \"...\", \"score\": <0-100>, \"reason\": \"one sentence explaining score including weather impact if relevant\"\x7d, ...]"

/-- `weather_map` (lines 90–93): keyed by event id, overwriting on
duplicate ids; values may themselves be absent forecasts. -/
def buildWeatherMap (candidates : List EventResult)
    (forecasts : List (String × DailyForecast)) : List (String × Option DailyForecast) :=
  candidates.foldl (fun m e => pyDictInsert m e.event_id (pyDictGet forecasts e.date)) []

def scoringErrorReason (exc : String) : String := "Scoring error: " ++ exc

/-- The `except` branch (lines 178–191): every candidate gets score 0
and a rationale embedding the failure. -/
def fallbackScored (candidates : List EventResult)
    (weather_map : List (String × Option DailyForecast)) (exc : String) :
    List ScoredEvent :=
  candidates.map fun e =>
    { event := e
      weather := (pyDictGet weather_map e.event_id).join
      relevance_score := PyFloat.fin 0
      score_reason := scoringErrorReason exc }

/-- The message carried by a `json.JSONDecodeError` raised inside the
`try` (its exact text does not matter to any claim). -/
def jsonDecodeErrorMsg : String := "json.JSONDecodeError"

/-- `event_lookup = {e.event_id: e for e in candidate_events}`
(line 193): duplicate ids collapse, keeping the first position and the
last value. -/
def eventLookup (candidates : List EventResult) : List (String × EventResult) :=
  candidates.foldl (fun d e => pyDictInsert d e.event_id e) []

/-- `scores_map = {item["event_id"]: item for item in scores_list}`
(line 194), evaluated outside the `try`: a non-list reply, a non-dict
item or an item without an `event_id` key raises to the caller. -/
def buildScoresMap : Json → Except String (List (Json × Json))
  | .arr items =>
    items.foldlM
      (fun d item =>
        match item with
        | .obj fields =>
          match jsonObjGet fields "event_id" with
          | some k => .ok (jdictInsert d k item)
          | none => .error "KeyError"
        | _ => .error "TypeError")
      []
  | .obj [] => .ok []
  | .obj (_ :: _) => .error "TypeError"
  | .str s => if s = "" then .ok [] else .error "TypeError"
  | _ => .error "TypeError"

/-- `scores_map.get(event_id, {"score": 0, "reason": "Not scored by LLM"})`
(line 198). -/
def scoreEntryFor (scores_map : List (Json × Json)) (event_id : String) : Json :=
  match jdictGet scores_map (Json.str event_id) with
  | some item => item
  | none => Json.obj [("score", Json.num "0"), ("reason", Json.str "Not scored by LLM")]

/-- `float(score_data.get("score", 0))` (line 202). -/
def scoreOf (score_data : Json) : Except String PyFloat :=
  pyFloat
    (match score_data with
     | .obj fields => (jsonObjGet fields "score").getD (Json.num "0")
     | _ => Json.num "0")

/-- `score_data.get("reason", "")` (line 203) followed by pydantic's
`str` validation of `score_reason`. -/
def reasonOf (score_data : Json) : Except String String :=
  match
    (match score_data with
     | .obj fields => (jsonObjGet fields "reason").getD (Json.str "")
     | _ => Json.str "") with
  | .str s => .ok s
  | _ => .error "ValidationError"

/-- The `ScoredEvent` built for one `event_lookup` entry (lines
199–204); `.error` models an exception raised by `float(...)` or by
pydantic validation. -/
def buildScored (scores_map : List (Json × Json))
    (weather_map : List (String × Option DailyForecast))
    (p : String × EventResult) : Except String ScoredEvent :=
  match scoreOf (scoreEntryFor scores_map p.1) with
  | .error e => .error e
  | .ok score =>
    match reasonOf (scoreEntryFor scores_map p.1) with
    | .error e => .error e
    | .ok reason =>
      .ok
        { event := p.2
          weather := (pyDictGet weather_map p.1).join
          relevance_score := score
          score_reason := reason }

/-- The merge loop (lines 196–204): one `ScoredEvent` per entry of
`event_lookup`, also outside the `try` (a bad `score` or `reason`
value raises and aborts the loop). -/
def mergeScores (event_lookup : List (String × EventResult))
    (scores_map : List (Json × Json))
    (weather_map : List (String × Option DailyForecast)) :
    Except String (List ScoredEvent) :=
  match event_lookup with
  | [] => .ok []
  | p :: rest =>
    match buildScored scores_map weather_map p with
    | .error e => .error e
    | .ok se =>
      match mergeScores rest scores_map weather_map with
      | .error e => .error e
      | .ok tail => .ok (se :: tail)

/-- Stable insertion for the descending sort: an element moves past
exactly the IEEE-strictly-greater scores, so equal scores keep their
original relative order — the behaviour of Python's stable
`list.sort(key=..., reverse=True)`.  A `nan` key compares false both
ways and is inserted in place, so `nan`-bearing lists come out
unsorted, as they do from CPython's reverse-before-and-after stable
sort. -/
def insertDesc (x : ScoredEvent) : List ScoredEvent → List ScoredEvent
  | [] => [x]
  | y :: ys =>
    if PyFloat.lt x.relevance_score y.relevance_score then y :: insertDesc x ys
    else x :: y :: ys

/-- `scored.sort(key=lambda x: x.relevance_score, reverse=True)`
(line 206): stable descending sort. -/
def sortDesc : List ScoredEvent → List ScoredEvent
  | [] => []
  | x :: xs => insertDesc x (sortDesc xs)

/-- `run_recommendation_agent` (recommendation_agent.py lines 72–207).
The external LLM call is the argument `judge`, taking the system and
user messages to either the reply text or the message of a raised
exception; the Boolean records whether the judge was invoked.  An
exception raised outside the `try` block surfaces as `.error`. -/
def runRecommendationAgentT (request : UserRequest) (events_out : EventAgentOutput)
    (weather_out : WeatherAgentOutput) (judge : String → String → Except String String)
    (top_n : Int) : Except String RecommendationAgentOutput × Bool :=
  if events_out.events.isEmpty then
    (.ok { request := request, recommendations := [] }, false)
  else
    match judge scoringSystemMsg
        (scoringUserMsg request (events_out.events.take LLM_EVENT_LIMIT).length
          (scoringEventsText (events_out.events.take LLM_EVENT_LIMIT) weather_out.forecasts)) with
    | .error exc =>
      (.ok { request := request
             recommendations :=
               pySlice top_n
                 (fallbackScored (events_out.events.take LLM_EVENT_LIMIT)
                   (buildWeatherMap (events_out.events.take LLM_EVENT_LIMIT) weather_out.forecasts)
                   exc) },
       true)
    | .ok raw =>
      match parseScoresJson (String.mk (pyStrip raw.data)) with
      | none =>
        (.ok { request := request
               recommendations :=
                 pySlice top_n
                   (fallbackScored (events_out.events.take LLM_EVENT_LIMIT)
                     (buildWeatherMap (events_out.events.take LLM_EVENT_LIMIT)
                       weather_out.forecasts)
                     jsonDecodeErrorMsg) },
         true)
      | some scores_list =>
        match buildScoresMap scores_list with
        | .error exc => (.error exc, true)
        | .ok scores_map =>
          match
            mergeScores (eventLookup (events_out.events.take LLM_EVENT_LIMIT)) scores_map
              (buildWeatherMap (events_out.events.take LLM_EVENT_LIMIT) weather_out.forecasts)
          with
          | .error exc => (.error exc, true)
          | .ok scored =>
            (.ok { request := request, recommendations := pySlice top_n (sortDesc scored) },
             true)

def runRecommendationAgent (request : UserRequest) (events_out : EventAgentOutput)
    (weather_out : WeatherAgentOutput) (judge : String → String → Except String String)
    (top_n : Int) : Except String RecommendationAgentOutput :=
  (runRecommendationAgentT request events_out weather_out judge top_n).1

/-! ## The QA agent (`run_qa_agent`, qa_agent.py) -/

/-- One entry of `_build_context` (qa_agent.py lines 37–60). -/
def qaEventEntry (i : Nat) (r : ScoredEvent) : String :=
  let e := r.event
  let weather_str :=
    match r.weather with
    | some w =>
      w.description ++ ", " ++ formatF0 w.temp_min_f ++ "-" ++ formatF0 w.temp_max_f ++
      "F, rain " ++ formatF0 w.precipitation_chance ++ "%, suitable_outdoor=" ++
      pyBoolStr w.is_suitable_outdoor
    | none => "No forecast available"
  let price_str :=
    if e.price_min ≠ 0 ∨ e.price_max ≠ 0 then
      "$" ++ formatF0 e.price_min ++ "-$" ++ formatF0 e.price_max
    else "Free/Unknown"
  let desc_str :=
    if String.mk (pyStrip e.description.data) ≠ "" then String.mk (pyStrip e.description.data)
    else "No description available from Ticketmaster."
  "#" ++ toString i ++ " " ++ e.event_name ++ " [Score: " ++ pyFRepr r.relevance_score ++
  "/100]\n" ++
  "  Date        : " ++ e.date ++ " (" ++ (if e.is_weekend then "Weekend" else "Weekday") ++
  ") @ " ++ e.time ++ "\n" ++
  "  Venue       : " ++ e.venue_name ++ ", " ++ e.venue_address ++ ", " ++ e.venue_city ++
  ", " ++ e.venue_state ++ " (" ++ (if e.is_outdoor then "Outdoor" else "Indoor") ++ ")\n" ++
  "  Genre       : " ++ e.category ++ " / " ++ e.genre ++ "\n" ++
  "  Price       : " ++ price_str ++ "\n" ++
  "  Weather     : " ++ weather_str ++ "\n" ++
  "  Tickets     : " ++ e.url ++ "\n" ++
  "  Description : " ++ desc_str ++ "\n" ++
  "  Why recommended: " ++ r.score_reason ++ "\n"

/-- `_build_context` (qa_agent.py lines 31–61): header plus one block
per recommendation, joined by newlines; regenerated from the
`RecommendationAgentOutput` on every call. -/
def buildContext (recs : RecommendationAgentOutput) : String :=
  let header :=
    "Top " ++ toString recs.recommendations.length ++ " recommended events for the user:\n" ++
    "(City: " ++ recs.request.city ++ ", Dates: " ++ toString recs.request.start_date ++
    " to " ++ toString recs.request.end_date ++ ")\n"
  String.intercalate "\n"
    (header :: recs.recommendations.enum.map (fun p => qaEventEntry (p.1 + 1) p.2))

/-- `_enrich_with_search` (qa_agent.py lines 64–84): the external web
search is the argument `webSearch`, already summarising a query to a
result block (`""` on failure, exactly `_web_search`'s contract). -/
def enrichWithSearch (webSearch : String → String)
    (recs : RecommendationAgentOutput) : String :=
  String.intercalate "\n"
    (recs.recommendations.filterMap fun r =>
      let e := r.event
      if String.mk (pyStrip e.description.data) = "" ∨ (pyStrip e.description.data).length < 60 then
        let results := webSearch (e.event_name ++ " " ++ e.venue_name ++ " " ++ e.venue_city)
        if results ≠ "" then
          some ("\n--- Web search results for \"" ++ e.event_name ++ "\" ---\n" ++ results)
        else none
      else none)

/-- The QA system prompt (qa_agent.py lines 100–150). -/
def qaSystemPrompt (event_context : String) (search_context : String) : String :=
  "You are EventScout, a knowledgeable and friendly event assistant. " ++
  "Your job is to help users understand and choose from their personalized event recommendations — " ++
  "and to answer any related questions using both the event data you have AND your broad world knowledge.\n\n" ++
  "## Event Data\n" ++
  "You have been given structured data for each recommended event below. " ++
  "Always reference specific event names, times, venues, and prices from this data when relevant.\n\n" ++
  "## Web Search Results\n" ++
  "For events whose Ticketmaster data was sparse, web search results have been pre-fetched and are " ++
  "included below the event list. Use these freely to give richer, more informative answers.\n\n" ++
  "## How to Answer\n" ++
  "- **Use your own knowledge**: If a user asks about a venue, artist, team, or event concept " ++
  "that you know about (e.g. \x27What is Madison Square Garden?\x27, \x27Who is Drake?\x27, " ++
  "\x27What is SJU?\x27), answer from your knowledge — don\x27t pretend you don\x27t know.\n" ++
  "- **Combine sources**: Merge the structured event data with your general knowledge and the web " ++
  "search results to give the most complete answer possible.\n" ++
  "- **Directions & maps**: For location questions, describe how to get there (subway, transit, parking) " ++
  "based on your knowledge of the city.\n" ++
  "- **Ticket packages / add-ons**: If an event listing appears to be a ticket add-on or package " ++
  "(e.g. food vouchers, VIP upgrades, parking passes), explain what it likely is and how it relates " ++
  "to the main event at that venue.\n" ++
  "- **Comparisons**: Compare events using score, price, weather suitability, and genre.\n" ++
  "- **Off-topic redirects**: For questions completely unrelated to events or the city " ++
  "(e.g. \x27What is the capital of France?\x27), gently redirect: " ++
  "\x27I\x27m best at helping with your event recommendations — is there anything about the events listed above I can help with?\x27\n" ++
  "- **Never fabricate**: Don\x27t invent prices, times, or URLs. If the data has it, use it. " ++
  "If not, say \x27the listing doesn\x27t include that detail\x27 and offer to help with what you do know.\n\n" ++
  "EXAMPLE — Ticket add-on question:\n" ++
  "User: \x27What is SJU Food & Bev Vouchers?\x27\n" ++
  "Good answer: \x27SJU Food & Bev Vouchers is a food and beverage package offered alongside " ++
  "St. John\x27s University (SJU) basketball games at Madison Square Garden. " ++
  "These are add-on tickets that include a pre-loaded credit you can spend on food and drinks " ++
  "at MSG concession stands during the event. If you purchase them alongside a game ticket, " ++
  "it\x27s a convenient way to budget for in-arena dining.\x27\n\n" ++
  "EXAMPLE — Directions question:\n" ++
  "User: \x27How do I get to Madison Square Garden?\x27\n" ++
  "Good answer: \x27Madison Square Garden is located at 4 Pennsylvania Plaza, NYC. " ++
  "By subway take the A/C/E or 1/2/3 lines to 34th Street–Penn Station — it\x27s directly connected. " ++
  "PATH trains also stop at 33rd Street a block away. Parking garages are nearby but expensive; " ++
  "public transit is strongly recommended.\x27\n\n" ++
  "---\n" ++
  "## Recommended Events\n\n" ++
  event_context ++
  (if search_context ≠ "" then "\n\n## Web Search Enrichment\n" ++ search_context else "")

/-- `run_qa_agent` (qa_agent.py lines 89–172).  The LLM call is the
argument `judge` on the constructed message sequence; on failure the
answer becomes the fixed apology embedding the exception text.  The
updated history is the input history plus exactly the (user question,
answer) pair. -/
def runQaAgent (webSearch : String → String)
    (judge : List QAMessage → Except String String) (qa : QARequest) : QAResponse :=
  let event_context := buildContext qa.recommendations
  let search_context := enrichWithSearch webSearch qa.recommendations
  let system_prompt := qaSystemPrompt event_context search_context
  let messages :=
    { role := "system", content := system_prompt } ::
      (qa.conversation_history ++ [{ role := "user", content := qa.user_question }])
  let answer :=
    match judge messages with
    | .ok text => String.mk (pyStrip text.data)
    | .error exc => "Sorry, I encountered an error: " ++ exc ++ ". Please try again."
  { answer := answer
    updated_history :=
      qa.conversation_history ++
        [{ role := "user", content := qa.user_question },
         { role := "assistant", content := answer }] }

/-! ## The two consumer-facing entry points -/

/-- The `/recommend` route (api/routes/recommend.py lines 11–23): both
collaborator fetches are submitted to the thread pool before anything
else — the second component records the collaborator calls made.  No
validation of the date order happens here (FastAPI/pydantic only check
field types). -/
def recommendRoute (run_events : UserRequest → EventAgentOutput)
    (run_weather : UserRequest → WeatherAgentOutput)
    (judge : String → String → Except String String)
    (request : UserRequest) (top_n : Int) :
    Except String RecommendationAgentOutput × List String :=
  let calls := ["events_agent", "weather_agent"]
  let events_out := run_events request
  let weather_out := run_weather request
  if events_out.error.isSome then
    (.ok { request := request, recommendations := [] }, calls)
  else
    ((runRecommendationAgentT request events_out weather_out judge top_n).1, calls)

/-- The Streamlit search pipeline (app.py lines 101–162): date order
and vibe notes are validated before any collaborator call (`.error`
models `st.error` followed by `st.stop()`); the second component again
records the collaborator calls made. -/
def appSearchPipeline (run_events : UserRequest → EventAgentOutput)
    (run_weather : UserRequest → WeatherAgentOutput)
    (judge : String → String → Except String String)
    (request : UserRequest) (top_n : Int) :
    Except String RecommendationAgentOutput × List String :=
  if request.end_date < request.start_date then
    (.error "Start date must be before end date.", [])
  else if String.mk (pyStrip request.vibe_notes.data) = "" then
    (.error "Please fill in your vibe & preferences field before searching.", [])
  else
    let calls := ["events_agent", "weather_agent"]
    let events_out := run_events request
    let weather_out := run_weather request
    if events_out.total_found = 0 then
      (.error "No events found — try different filters.", calls)
    else
      ((runRecommendationAgentT request events_out weather_out judge top_n).1, calls)

/-! ## Concrete fixtures

Small closed values used by the concrete witnesses and counterexamples
in the verification below. -/

def sampleRequest : UserRequest :=
  { city := "New York", state_code := some "NY", country_code := "US"
    start_date := 1, end_date := 5
    event_description := "jazz music indoor weekend"
    venue_preference := "No preference", vibe_notes := "chill"
    budget_max := some 100 }

/-- A malformed request: start date after end date. -/
def badDatesRequest : UserRequest :=
  { city := "New York", state_code := some "NY", country_code := "US"
    start_date := 5, end_date := 3
    event_description := "jazz", venue_preference := "No preference"
    vibe_notes := "chill", budget_max := none }

def mkSampleEvent (eid ename : String) : EventResult :=
  { event_id := eid, event_name := ename, description := ""
    date := "2026-03-07", time := "19:00"
    venue_name := "Blue Note", venue_address := "131 W 3rd St"
    venue_city := "New York", venue_state := "NY"
    venue_latitude := 0, venue_longitude := 0
    price_min := 25, price_max := 50
    category := "Music", genre := "Jazz"
    url := "https://example.com/t", image_url := ""
    is_weekend := true, is_outdoor := false }

def sampleEventsOut (events : List EventResult) : EventAgentOutput :=
  { request := sampleRequest, events := events
    total_found := events.length, error := none }

def sampleWeatherOut : WeatherAgentOutput :=
  { city := "New York", forecasts := [], error := none }

/-- The scored entry produced for a candidate the judge did not score. -/
def notScoredEntry (e : EventResult) : ScoredEvent :=
  { event := e, weather := none, relevance_score := PyFloat.fin 0
    score_reason := "Not scored by LLM" }

/-- A stub collaborator pair for the route/app entry points. -/
def stubEventsAgent (events : List EventResult) : UserRequest → EventAgentOutput :=
  fun r => { request := r, events := events, total_found := events.length, error := none }

def stubWeatherAgent : UserRequest → WeatherAgentOutput :=
  fun r => { city := r.city, forecasts := [], error := none }

/-!
# Proofs

First decidable equality of `Json`, then the lemma stack for the
sanitizer round-trip, then the ranking lemmas, then the claim theorems.
-/

mutual

theorem Json.beq_iff : ∀ a b : Json, Json.beq a b = true ↔ a = b
  | .null, .null => by simp [Json.beq]
  | .bool _, .bool _ => by simp [Json.beq]
  | .num _, .num _ => by simp [Json.beq]
  | .str _, .str _ => by simp [Json.beq]
  | .arr x, .arr y => by simp [Json.beq, Json.beqList_iff x y]
  | .obj x, .obj y => by simp [Json.beq, Json.beqFields_iff x y]
  | .null, .bool _ | .null, .num _ | .null, .str _ | .null, .arr _ | .null, .obj _
  | .bool _, .null | .bool _, .num _ | .bool _, .str _ | .bool _, .arr _ | .bool _, .obj _
  | .num _, .null | .num _, .bool _ | .num _, .str _ | .num _, .arr _ | .num _, .obj _
  | .str _, .null | .str _, .bool _ | .str _, .num _ | .str _, .arr _ | .str _, .obj _
  | .arr _, .null | .arr _, .bool _ | .arr _, .num _ | .arr _, .str _ | .arr _, .obj _
  | .obj _, .null | .obj _, .bool _ | .obj _, .num _ | .obj _, .str _ | .obj _, .arr _ => by
    simp [Json.beq]

theorem Json.beqList_iff : ∀ a b : List Json, Json.beqList a b = true ↔ a = b
  | [], [] => by simp [Json.beqList]
  | x :: xs, y :: ys => by
    simp [Json.beqList, Json.beq_iff x y, Json.beqList_iff xs ys]
  | [], _ :: _ => by simp [Json.beqList]
  | _ :: _, [] => by simp [Json.beqList]

theorem Json.beqFields_iff : ∀ a b : List (String × Json), Json.beqFields a b = true ↔ a = b
  | [], [] => by simp [Json.beqFields]
  | (k, v) :: xs, (k', v') :: ys => by
    simp [Json.beqFields, Json.beq_iff v v', Json.beqFields_iff xs ys, and_assoc]
  | [], _ :: _ => by simp [Json.beqFields]
  | _ :: _, [] => by simp [Json.beqFields]

end

instance : DecidableEq Json := fun a b =>
  decidable_of_iff (Json.beq a b = true) (Json.beq_iff a b)

/-! ## Comma-safety lemmas -/

theorem dropWhile_append_of_ne_nil {p : Char → Bool} {l : List Char} (l' : List Char)
    (h : l.dropWhile p ≠ []) : (l ++ l').dropWhile p = l.dropWhile p ++ l' := by
  induction l with
  | nil => simp at h
  | cons c cs ih =>
    by_cases hc : p c
    · simp only [List.cons_append, List.dropWhile_cons, hc, if_true] at h ⊢
      exact ih h
    · simp [List.cons_append, List.dropWhile_cons, hc]

/-- One-step unfolding of `bodySafe`. -/
theorem bodySafe_cons_eq (c : Char) (cs : List Char) :
    bodySafe (c :: cs) =
      ((if c = ',' then
          match cs.dropWhile isPyWs with
          | c' :: _ => !closeChar c'
          | [] => false
        else true) && bodySafe cs) := rfl

theorem bodySafe_cons_of_ne_comma {c : Char} (cs : List Char) (hc : ¬c = ',') :
    bodySafe (c :: cs) = bodySafe cs := by
  rw [bodySafe_cons_eq, if_neg hc, Bool.true_and]

theorem bodySafe_append {a b : List Char} (ha : bodySafe a = true)
    (hb : bodySafe b = true) : bodySafe (a ++ b) = true := by
  induction a with
  | nil => simpa using hb
  | cons c cs ih =>
    rw [bodySafe_cons_eq, Bool.and_eq_true] at ha
    rcases ha with ⟨h1, h2⟩
    rw [List.cons_append, bodySafe_cons_eq, Bool.and_eq_true]
    refine ⟨?_, ih h2⟩
    by_cases hc : c = ','
    · rw [if_pos hc] at h1 ⊢
      rcases hd : cs.dropWhile isPyWs with _ | ⟨c', t⟩
      · rw [hd] at h1; exact absurd h1 (by simp)
      · rw [dropWhile_append_of_ne_nil b (by rw [hd]; simp), hd]
        rw [hd] at h1
        simpa using h1
    · rw [if_neg hc]

theorem headedOk_append {a : List Char} (b : List Char) (ha : headedOk a = true) :
    headedOk (a ++ b) = true := by
  rcases a with _ | ⟨c, t⟩
  · simp [headedOk] at ha
  · simpa [headedOk] using ha

theorem bodySafe_comma_cons {b : List Char} (hh : headedOk b = true)
    (hb : bodySafe b = true) : bodySafe (',' :: b) = true := by
  rcases b with _ | ⟨c, t⟩
  · simp [headedOk] at hh
  · simp only [headedOk, Bool.not_eq_true', Bool.or_eq_false_iff] at hh
    rw [bodySafe_cons_eq, if_pos rfl, Bool.and_eq_true]
    refine ⟨?_, hb⟩
    simp [List.dropWhile_cons, hh.1, hh.2]

theorem bodySafe_of_all_ne_comma {cs : List Char} (h : ∀ c ∈ cs, ¬c = ',') :
    bodySafe cs = true := by
  induction cs with
  | nil => rfl
  | cons c cs ih =>
    rw [bodySafe_cons_of_ne_comma cs (h c (by simp))]
    exact ih fun c' hc' => h c' (by simp [hc'])

/-- One-step unfolding of `removeTrailingCommasF`. -/
theorem removeTrailingCommasF_cons (fuel : Nat) (c : Char) (rest : List Char) :
    removeTrailingCommasF (fuel + 1) (c :: rest) =
      if c = ',' then
        match commaCloseSplit rest with
        | some (cl, tail) => cl :: removeTrailingCommasF fuel tail
        | none => ',' :: removeTrailingCommasF fuel rest
      else c :: removeTrailingCommasF fuel rest := rfl

/-- The trailing-comma repair removes exactly the appended `,` before
the final `]` when every comma of the body resolves safely within the
body. -/
theorem removeTrailingCommasF_body {body : List Char} {fuel : Nat}
    (hs : bodySafe body = true) (hf : body.length + 2 ≤ fuel) :
    removeTrailingCommasF fuel (body ++ [',', ']']) = body ++ [']'] := by
  induction body generalizing fuel with
  | nil =>
    rcases fuel with _ | _ | fuel
    · omega
    · omega
    · simp [removeTrailingCommasF, commaCloseSplit, List.dropWhile, isPyWs, closeChar]
  | cons c cs ih =>
    rw [bodySafe_cons_eq, Bool.and_eq_true] at hs
    rcases hs with ⟨h1, h2⟩
    rcases fuel with _ | fuel
    · simp at hf
    have hfuel : cs.length + 2 ≤ fuel := by simp at hf; omega
    rw [List.cons_append, removeTrailingCommasF_cons]
    by_cases hc : c = ','
    · rw [if_pos hc] at h1
      rw [if_pos hc, hc]
      rcases hd : cs.dropWhile isPyWs with _ | ⟨c', t⟩
      · rw [hd] at h1; exact absurd h1 (by simp)
      · rw [hd] at h1
        simp only [Bool.not_eq_true', closeChar, Bool.or_eq_false_iff,
          decide_eq_false_iff_not] at h1
        have hsplit : commaCloseSplit (cs ++ [',', ']']) = none := by
          unfold commaCloseSplit
          rw [dropWhile_append_of_ne_nil _ (by rw [hd]; simp), hd]
          simp [h1.1, h1.2]
        rw [hsplit, ih h2 hfuel]
        simp
    · rw [if_neg hc, ih h2 hfuel]
      simp

/-! ## Safety of rendered JSON -/

theorem numLitChar_ne_comma {c : Char} (h : numLitChar c = true) : ¬c = ',' := by
  intro hc
  subst hc
  exact absurd h (by decide)

theorem numLitChar_not_ws_close {c : Char} (h : numLitChar c = true) :
    isPyWs c = false ∧ closeChar c = false := by
  constructor
  · cases hw : isPyWs c
    · rfl
    · exfalso
      simp only [isPyWs, Bool.or_eq_true, decide_eq_true_eq] at hw
      rcases hw with ((((rfl | rfl) | rfl) | rfl) | rfl) | rfl <;> exact absurd h (by decide)
  · cases hw : closeChar c
    · rfl
    · exfalso
      simp only [closeChar, Bool.or_eq_true, decide_eq_true_eq] at hw
      rcases hw with rfl | rfl <;> exact absurd h (by decide)

theorem numLit_bodySafe {lit : String} (h : numLitOk lit = true) :
    bodySafe lit.data = true := by
  simp only [numLitOk, Bool.and_eq_true, List.all_eq_true] at h
  exact bodySafe_of_all_ne_comma fun c hc => numLitChar_ne_comma (h.2 c hc)

theorem numLit_headedOk {lit : String} (h : numLitOk lit = true) :
    headedOk lit.data = true := by
  simp only [numLitOk, Bool.and_eq_true, List.all_eq_true] at h
  rcases hd : lit.data with _ | ⟨c, t⟩
  · rw [hd] at h; simp at h
  · have hc := h.2 c (by rw [hd]; simp)
    have := numLitChar_not_ws_close hc
    simp [headedOk, this.1, this.2]

theorem renderString_headedOk (s : String) : headedOk (renderString s) = true := rfl

theorem render_headedOk : ∀ v : Json, cleanJson v = true → headedOk (render v) = true
  | .null, _ => by simp only [render]; decide
  | .bool true, _ => by simp only [render]; decide
  | .bool false, _ => by simp only [render]; decide
  | .num lit, h => by
    simp only [render]
    exact numLit_headedOk (by simpa [cleanJson] using h)
  | .str s, _ => by simp only [render]; exact renderString_headedOk s
  | .arr [], _ => by simp only [render]; decide
  | .arr (x :: xs), _ => by
    simp only [render, List.cons_append]
    simp [headedOk, isPyWs, closeChar]
  | .obj [], _ => by simp only [render]; decide
  | .obj ((k, v) :: ps), _ => by
    simp only [render, List.cons_append]
    simp [headedOk, isPyWs, closeChar]

mutual

theorem render_bodySafe : ∀ v : Json, cleanJson v = true → bodySafe (render v) = true
  | .null, _ => by simp only [render]; decide
  | .bool true, _ => by simp only [render]; decide
  | .bool false, _ => by simp only [render]; decide
  | .num lit, h => by
    simp only [render]
    exact numLit_bodySafe (by simpa [cleanJson] using h)
  | .str s, h => by
    simp only [render]
    simpa [cleanJson] using h
  | .arr [], _ => by simp only [render]; decide
  | .arr (x :: xs), h => by
    simp only [cleanJson, cleanList, Bool.and_eq_true] at h
    simp only [render, List.cons_append]
    rw [bodySafe_cons_of_ne_comma _ (by decide)]
    exact bodySafe_append
      (bodySafe_append (render_bodySafe x h.1) (renderTail_bodySafe xs h.2))
      (by decide)
  | .obj [], _ => by simp only [render]; decide
  | .obj ((k, v) :: ps), h => by
    simp only [cleanJson, cleanFields, Bool.and_eq_true] at h
    simp only [render, List.cons_append]
    rw [bodySafe_cons_of_ne_comma _ (by decide)]
    refine bodySafe_append (bodySafe_append (bodySafe_append h.1.1 ?_) ?_) (by decide)
    · rw [bodySafe_cons_of_ne_comma _ (by decide)]
      exact render_bodySafe v h.1.2
    · exact renderFTail_bodySafe ps h.2

theorem renderTail_bodySafe : ∀ xs : List Json, cleanList xs = true →
    bodySafe (renderTail xs) = true
  | [], _ => by simp only [renderTail]; rfl
  | x :: xs, h => by
    simp only [cleanList, Bool.and_eq_true] at h
    simp only [renderTail]
    exact bodySafe_comma_cons
      (headedOk_append _ (render_headedOk x h.1))
      (bodySafe_append (render_bodySafe x h.1) (renderTail_bodySafe xs h.2))

theorem renderFTail_bodySafe : ∀ ps : List (String × Json), cleanFields ps = true →
    bodySafe (renderFTail ps) = true
  | [], _ => by simp only [renderFTail]; rfl
  | (k, v) :: ps, h => by
    simp only [cleanFields, Bool.and_eq_true] at h
    simp only [renderFTail]
    refine bodySafe_comma_cons (headedOk_append _ (renderString_headedOk k)) ?_
    refine bodySafe_append (bodySafe_append h.1.1 ?_) ?_
    · rw [bodySafe_cons_of_ne_comma _ (by decide)]
      exact render_bodySafe v h.1.2
    · exact renderFTail_bodySafe ps h.2

end

/-! ## The sanitizer on a fenced, trailing-comma-wrapped array -/

theorem dropWhile_eq_self_of_head {c : Char} (t : List Char) (h : isPyWs c = false) :
    (c :: t).dropWhile isPyWs = c :: t := by
  rw [List.dropWhile_cons, if_neg (by simp [h])]

theorem pyStrip_eq_self {cs : List Char}
    (h1 : cs.dropWhile isPyWs = cs) (h2 : cs.reverse.dropWhile isPyWs = cs.reverse) :
    pyStrip cs = cs := by
  unfold pyStrip
  rw [h1, h2, List.reverse_reverse]

theorem pyStrip_ends {c d : Char} (mid : List Char)
    (hc : isPyWs c = false) (hd : isPyWs d = false) :
    pyStrip (c :: mid ++ [d]) = c :: mid ++ [d] := by
  refine pyStrip_eq_self ?_ ?_
  · rw [List.cons_append]
    exact dropWhile_eq_self_of_head _ hc
  · have hrev : ((c :: mid) ++ [d]).reverse = d :: (c :: mid).reverse := by
      rw [List.reverse_append]; rfl
    rw [hrev]
    exact dropWhile_eq_self_of_head _ hd

theorem stripLeadingFence_json (rest : List Char) :
    stripLeadingFence ('`' :: '`' :: '`' :: 'j' :: 's' :: 'o' :: 'n' :: '\n' :: '[' :: rest)
      = '[' :: rest := by
  unfold stripLeadingFence
  have hc : List.take 7 ('`' :: '`' :: '`' :: 'j' :: 's' :: 'o' :: 'n' :: '\n' :: '[' :: rest)
      = ['`', '`', '`', 'j', 's', 'o', 'n'] := rfl
  rw [if_pos hc]
  show ('\n' :: '[' :: rest).dropWhile isPyWs = '[' :: rest
  rw [List.dropWhile_cons, if_pos (by decide)]
  exact dropWhile_eq_self_of_head _ (by decide)

theorem stripTrailingFence_json (u : List Char)
    (hu : u.reverse.dropWhile isPyWs = u.reverse) :
    stripTrailingFence (u ++ ['\n', '`', '`', '`']) = u := by
  unfold stripTrailingFence
  have hrev : (u ++ ['\n', '`', '`', '`']).reverse = '`' :: '`' :: '`' :: '\n' :: u.reverse := by
    rw [List.reverse_append]; rfl
  rw [hrev]
  have hc : List.take 3 ('`' :: '`' :: '`' :: '\n' :: u.reverse) = ['`', '`', '`'] := rfl
  rw [if_pos hc]
  show (('\n' :: u.reverse).dropWhile isPyWs).reverse = u
  rw [List.dropWhile_cons, if_pos (by decide), hu, List.reverse_reverse]

theorem firstIdxOf_head (c : Char) (rest : List Char) :
    firstIdxOf c (c :: rest) = some 0 := by
  simp [firstIdxOf]

theorem reverse_bracket_body (B : List Char) :
    ('[' :: (B ++ [',', ']'])).reverse = ']' :: ',' :: (B.reverse ++ ['[']) := by
  rw [show ('[' :: (B ++ [',', ']'])) = ('[' :: B) ++ [',', ']'] by simp,
    List.reverse_append]
  simp

theorem repairSlice_of_both {cs : List Char} {s e : Nat}
    (h1 : firstIdxOf '[' cs = some s) (h2 : lastIdxOf ']' cs = some e) :
    repairSlice cs =
      if s < e then (cs.drop s).take (e + 1 - s)
      else rstripSep (dropIncompleteTail (cs.drop s)) ++ [']'] := by
  unfold repairSlice
  rw [h1, h2]

theorem repairSlice_of_trunc {cs : List Char} {s : Nat}
    (h1 : firstIdxOf '[' cs = some s) (h2 : lastIdxOf ']' cs = none) :
    repairSlice cs = rstripSep (dropIncompleteTail (cs.drop s)) ++ [']'] := by
  unfold repairSlice
  rw [h1, h2]

theorem lastIdxOf_bracket_body (B : List Char) :
    lastIdxOf ']' ('[' :: (B ++ [',', ']'])) = some (B.length + 2) := by
  unfold lastIdxOf
  rw [reverse_bracket_body, firstIdxOf_head]
  have hlen : ('[' :: (B ++ [',', ']'])).length = B.length + 3 := by
    simp
  rw [hlen]
  simp

/-- The full sanitizer text-repair on a wrapped comma-safe array body:
the code fence, the inserted trailing comma and nothing else are
removed. -/
theorem repairJsonText_wrapped (B : List Char) (hB : bodySafe B = true) :
    repairJsonText
      ('`' :: ('`' :: '`' :: 'j' :: 's' :: 'o' :: 'n' :: '\n' :: '[' ::
        (B ++ [',', ']', '\n', '`', '`'])) ++ ['`'])
      = '[' :: (B ++ [']']) := by
  have hstrip1 :
      pyStrip ('`' :: ('`' :: '`' :: 'j' :: 's' :: 'o' :: 'n' :: '\n' :: '[' ::
          (B ++ [',', ']', '\n', '`', '`'])) ++ ['`'])
        = '`' :: ('`' :: '`' :: 'j' :: 's' :: 'o' :: 'n' :: '\n' :: '[' ::
          (B ++ [',', ']', '\n', '`', '`'])) ++ ['`'] :=
    pyStrip_ends _ (by decide) (by decide)
  have hnorm :
      '`' :: ('`' :: '`' :: 'j' :: 's' :: 'o' :: 'n' :: '\n' :: '[' ::
          (B ++ [',', ']', '\n', '`', '`'])) ++ ['`']
        = '`' :: '`' :: '`' :: 'j' :: 's' :: 'o' :: 'n' :: '\n' :: '[' ::
          (B ++ [',', ']', '\n', '`', '`', '`']) := by
    simp
  have hlead :
      stripLeadingFence ('`' :: '`' :: '`' :: 'j' :: 's' :: 'o' :: 'n' :: '\n' :: '[' ::
          (B ++ [',', ']', '\n', '`', '`', '`']))
        = '[' :: (B ++ [',', ']', '\n', '`', '`', '`']) := stripLeadingFence_json _
  have hsplit2 :
      '[' :: (B ++ [',', ']', '\n', '`', '`', '`'])
        = ('[' :: (B ++ [',', ']'])) ++ ['\n', '`', '`', '`'] := by
    simp
  have hrevu : (('[' :: (B ++ [',', ']'])).reverse).dropWhile isPyWs
      = ('[' :: (B ++ [',', ']'])).reverse := by
    rw [reverse_bracket_body]
    exact dropWhile_eq_self_of_head _ (by decide)
  have htrail :
      stripTrailingFence (('[' :: (B ++ [',', ']'])) ++ ['\n', '`', '`', '`'])
        = '[' :: (B ++ [',', ']']) := stripTrailingFence_json _ hrevu
  have hstrip2 : pyStrip ('[' :: (B ++ [',', ']'])) = '[' :: (B ++ [',', ']']) := by
    have : '[' :: (B ++ [',', ']']) = '[' :: (B ++ [',']) ++ [']'] := by simp
    rw [this]
    exact pyStrip_ends _ (by decide) (by decide)
  have hremove : removeTrailingCommas ('[' :: (B ++ [',', ']'])) = '[' :: (B ++ [']']) := by
    unfold removeTrailingCommas
    have hlen : ('[' :: (B ++ [',', ']'])).length = (B.length + 2) + 1 := by simp
    rw [hlen, removeTrailingCommasF_cons, if_neg (by decide)]
    have hbody : B ++ [',', ']'] = B ++ [','] ++ [']'] := by simp
    rw [show removeTrailingCommasF (B.length + 2) (B ++ [',', ']'])
        = removeTrailingCommasF (B.length + 2) (B ++ [',', ']']) from rfl]
    rw [removeTrailingCommasF_body hB (by omega)]
  have hslice : repairSlice ('[' :: (B ++ [',', ']'])) = '[' :: (B ++ [',', ']']) := by
    rw [repairSlice_of_both (firstIdxOf_head _ _) (lastIdxOf_bracket_body B),
      if_pos (by omega), List.drop_zero]
    have hlen3 : ('[' :: (B ++ [',', ']'])).length = B.length + 3 := by simp
    have htake : B.length + 2 + 1 - 0 = ('[' :: (B ++ [',', ']'])).length := by
      rw [hlen3]; omega
    rw [htake, List.take_length]
  unfold repairJsonText
  rw [hstrip1, hnorm, hlead, hsplit2, htrail, hstrip2, hslice]
  exact hremove

/-- Fencing and inserting a trailing comma into the rendering of a
clean array is undone completely by the sanitizer's text repair. -/
theorem repair_wrapJudge_render (l : List Json) (hc : cleanJson (Json.arr l) = true) :
    repairJsonText ((wrapJudge (String.mk (render (Json.arr l)))).data)
      = render (Json.arr l) := by
  cases l with
  | nil => rfl
  | cons x xs =>
    have hx : cleanJson x = true ∧ cleanList xs = true := by
      simpa [cleanJson, cleanList] using hc
    have hB : bodySafe (render x ++ renderTail xs) = true :=
      bodySafe_append (render_bodySafe x hx.1) (renderTail_bodySafe xs hx.2)
    have ht : render (Json.arr (x :: xs)) = '[' :: (render x ++ renderTail xs) ++ [']'] := by
      simp [render]
    have hwdata : (wrapJudge (String.mk (render (Json.arr (x :: xs))))).data
        = "```json\n".data ++ (render (Json.arr (x :: xs))).dropLast ++ ",]\n```".data := by
      unfold wrapJudge
      rw [String.data_append, String.data_append]
    have harg : (wrapJudge (String.mk (render (Json.arr (x :: xs))))).data
        = '`' :: ('`' :: '`' :: 'j' :: 's' :: 'o' :: 'n' :: '\n' :: '[' ::
            ((render x ++ renderTail xs) ++ [',', ']', '\n', '`', '`'])) ++ ['`'] := by
      rw [hwdata, ht]
      rw [show ('[' :: (render x ++ renderTail xs) ++ [']']).dropLast
          = '[' :: (render x ++ renderTail xs) from List.dropLast_concat]
      rw [show "```json\n".data = ['`', '`', '`', 'j', 's', 'o', 'n', '\n'] from rfl,
        show ",]\n```".data = [',', ']', '\n', '`', '`', '`'] from rfl]
      simp
    rw [harg, repairJsonText_wrapped _ hB, ht]
    simp

/-! ## Ranking lemmas: the stable descending sort -/

theorem PyFloat.lt_irrefl (a : PyFloat) : PyFloat.lt a a = false := by
  cases a <;> simp [PyFloat.lt, lt_irrefl]

theorem PyFloat.le_of_lt {a b : PyFloat} (h : PyFloat.lt a b = true) :
    PyFloat.le a b = true := by
  cases a <;> cases b <;> simp_all [PyFloat.lt, PyFloat.le]
  exact h.le

theorem PyFloat.le_rev_of_not_lt {a b : PyFloat} (ha : a ≠ PyFloat.nan)
    (hb : b ≠ PyFloat.nan) (h : PyFloat.lt a b = false) : PyFloat.le b a = true := by
  cases a <;> cases b <;> simp_all [PyFloat.lt, PyFloat.le, not_lt]

theorem PyFloat.le_trans {a b c : PyFloat} (h1 : PyFloat.le a b = true)
    (h2 : PyFloat.le b c = true) : PyFloat.le a c = true := by
  cases a <;> cases b <;> cases c <;> simp_all [PyFloat.le]
  exact h1.trans h2

theorem insertDesc_perm (x : ScoredEvent) (l : List ScoredEvent) :
    List.Perm (insertDesc x l) (x :: l) := by
  induction l with
  | nil => rfl
  | cons y ys ih =>
    unfold insertDesc
    split
    · exact (ih.cons y).trans (List.Perm.swap x y ys)
    · rfl

theorem sortDesc_perm (l : List ScoredEvent) : List.Perm (sortDesc l) l := by
  induction l with
  | nil => rfl
  | cons x xs ih => exact (insertDesc_perm x (sortDesc xs)).trans (ih.cons x)

theorem length_sortDesc (l : List ScoredEvent) : (sortDesc l).length = l.length :=
  (sortDesc_perm l).length_eq

theorem mem_insertDesc {a x : ScoredEvent} {l : List ScoredEvent} :
    a ∈ insertDesc x l ↔ a = x ∨ a ∈ l := by
  rw [(insertDesc_perm x l).mem_iff, List.mem_cons]

theorem insertDesc_pairwise {x : ScoredEvent} {l : List ScoredEvent}
    (hx : x.relevance_score ≠ PyFloat.nan)
    (hl : ∀ y ∈ l, y.relevance_score ≠ PyFloat.nan)
    (h : l.Pairwise (fun a b => PyFloat.le b.relevance_score a.relevance_score = true)) :
    (insertDesc x l).Pairwise
      (fun a b => PyFloat.le b.relevance_score a.relevance_score = true) := by
  induction l with
  | nil => simp [insertDesc]
  | cons y ys ih =>
    rw [List.pairwise_cons] at h
    unfold insertDesc
    split
    · next hlt =>
      rw [List.pairwise_cons]
      refine ⟨?_, ih (fun z hz => hl z (by simp [hz])) h.2⟩
      intro a ha
      rcases mem_insertDesc.mp ha with rfl | ha'
      · exact PyFloat.le_of_lt hlt
      · exact h.1 a ha'
    · next hge =>
      have hgef : PyFloat.lt x.relevance_score y.relevance_score = false := by
        simpa using hge
      have hyx : PyFloat.le y.relevance_score x.relevance_score = true :=
        PyFloat.le_rev_of_not_lt hx (hl y (by simp)) hgef
      rw [List.pairwise_cons]
      constructor
      · intro a ha
        rcases List.mem_cons.mp ha with rfl | ha'
        · exact hyx
        · exact PyFloat.le_trans (h.1 a ha') hyx
      · exact List.pairwise_cons.mpr h

theorem sortDesc_pairwise {l : List ScoredEvent}
    (hl : ∀ x ∈ l, x.relevance_score ≠ PyFloat.nan) :
    (sortDesc l).Pairwise
      (fun a b => PyFloat.le b.relevance_score a.relevance_score = true) := by
  induction l with
  | nil => exact List.Pairwise.nil
  | cons x xs ih =>
    show (insertDesc x (sortDesc xs)).Pairwise _
    refine insertDesc_pairwise (hl x (by simp)) ?_ (ih fun y hy => hl y (by simp [hy]))
    intro y hy
    exact hl y (by simp [(sortDesc_perm xs).mem_iff.mp hy])

theorem filter_insertDesc (s : PyFloat) (x : ScoredEvent) (l : List ScoredEvent) :
    (insertDesc x l).filter (fun e => decide (e.relevance_score = s))
      = if x.relevance_score = s then
          x :: l.filter (fun e => decide (e.relevance_score = s))
        else l.filter (fun e => decide (e.relevance_score = s)) := by
  induction l with
  | nil =>
    by_cases hx : x.relevance_score = s <;> simp [insertDesc, List.filter, hx]
  | cons y ys ih =>
    unfold insertDesc
    split
    · next hlt =>
      by_cases hx : x.relevance_score = s
      · have hy : ¬y.relevance_score = s := by
          intro he
          rw [← hx] at he
          rw [he] at hlt
          exact absurd hlt (by simp [PyFloat.lt_irrefl])
        simp [List.filter_cons, hy, hx, ih]
      · simp [List.filter_cons, hx, ih]
    · next hge =>
      by_cases hx : x.relevance_score = s
      · simp [List.filter_cons, hx]
      · simp [List.filter_cons, hx]

/-- Stability of the sort: for every score value, the subsequence of
elements carrying that score is unchanged by sorting. -/
theorem sortDesc_filter_stable (l : List ScoredEvent) (s : PyFloat) :
    (sortDesc l).filter (fun e => decide (e.relevance_score = s))
      = l.filter (fun e => decide (e.relevance_score = s)) := by
  induction l with
  | nil => rfl
  | cons x xs ih =>
    show (insertDesc x (sortDesc xs)).filter _ = _
    rw [filter_insertDesc]
    by_cases hx : x.relevance_score = s
    · rw [if_pos hx, ih, List.filter_cons, if_pos (by simpa using hx)]
    · rw [if_neg hx, ih, List.filter_cons, if_neg (by simpa using hx)]

/-! ## Slicing lemmas -/

theorem pySlice_sublist {α : Type} (k : Int) (l : List α) : (pySlice k l).Sublist l := by
  unfold pySlice
  split
  · exact List.take_sublist _ _
  · exact List.take_sublist _ _

theorem pySlice_length_le {α : Type} (k : Int) (l : List α) :
    (pySlice k l).length ≤ l.length :=
  (pySlice_sublist k l).length_le

theorem pySlice_length_le_toNat {α : Type} {k : Int} (hk : 0 ≤ k) (l : List α) :
    (pySlice k l).length ≤ k.toNat := by
  unfold pySlice
  rw [if_pos hk]
  exact List.length_take_le k.toNat l

theorem pySlice_subset {α : Type} (k : Int) (l : List α) :
    ∀ a ∈ pySlice k l, a ∈ l :=
  fun _ ha => (pySlice_sublist k l).subset ha

theorem pySlice_pairwise {R : ScoredEvent → ScoredEvent → Prop} {l : List ScoredEvent}
    (h : l.Pairwise R) (k : Int) : (pySlice k l).Pairwise R :=
  h.sublist (pySlice_sublist k l)

/-! ## Merge and dict lemmas -/

theorem mergeScores_ok_forall₂ {lookup : List (String × EventResult)}
    {scores_map : List (Json × Json)} {weather_map : List (String × Option DailyForecast)}
    {scored : List ScoredEvent}
    (h : mergeScores lookup scores_map weather_map = .ok scored) :
    List.Forall₂ (fun p se => buildScored scores_map weather_map p = .ok se) lookup scored := by
  induction lookup generalizing scored with
  | nil =>
    unfold mergeScores at h
    cases h
    exact List.Forall₂.nil
  | cons p rest ih =>
    unfold mergeScores at h
    rcases hb : buildScored scores_map weather_map p with e | se
    · rw [hb] at h; exact absurd h (by simp)
    · rw [hb] at h
      rcases ht : mergeScores rest scores_map weather_map with e | tail
      · rw [ht] at h; exact absurd h (by simp)
      · rw [ht] at h
        cases h
        exact List.Forall₂.cons hb (ih ht)

theorem buildScored_ok_event {scores_map : List (Json × Json)}
    {weather_map : List (String × Option DailyForecast)} {p : String × EventResult}
    {se : ScoredEvent} (h : buildScored scores_map weather_map p = .ok se) :
    se.event = p.2 := by
  unfold buildScored at h
  rcases h1 : scoreOf (scoreEntryFor scores_map p.1) with e | score
  · rw [h1] at h; exact absurd h (by simp)
  · rw [h1] at h
    rcases h2 : reasonOf (scoreEntryFor scores_map p.1) with e | reason
    · rw [h2] at h; exact absurd h (by simp)
    · rw [h2] at h
      cases h
      rfl

theorem pyDictInsert_of_fresh {β : Type} {d : List (String × β)} {k : String} {v : β}
    (h : d.any (fun p => p.1 == k) = false) : pyDictInsert d k v = d ++ [(k, v)] := by
  unfold pyDictInsert
  rw [if_neg (by simp [h])]

theorem foldl_eventLookup_fresh (cs : List EventResult) :
    ∀ acc : List (String × EventResult),
      (cs.map (fun e => e.event_id)).Nodup →
      (∀ e ∈ cs, acc.any (fun p => p.1 == e.event_id) = false) →
      cs.foldl (fun d e => pyDictInsert d e.event_id e) acc
        = acc ++ cs.map (fun e => (e.event_id, e)) := by
  induction cs with
  | nil => intro acc _ _; simp
  | cons e rest ih =>
    intro acc hnd hfresh
    rw [List.map_cons, List.nodup_cons] at hnd
    rw [List.foldl_cons, pyDictInsert_of_fresh (hfresh e (by simp))]
    rw [ih (acc ++ [(e.event_id, e)]) hnd.2 ?_]
    · simp
    · intro e' he'
      rw [List.any_append]
      have h1 : acc.any (fun p => p.1 == e'.event_id) = false := hfresh e' (by simp [he'])
      have h2 : ¬e.event_id = e'.event_id := by
        intro he
        exact hnd.1 (he ▸ List.mem_map.mpr ⟨e', he', rfl⟩)
      simp [h1, List.any_cons, h2]

theorem eventLookup_of_nodup {cs : List EventResult}
    (h : (cs.map (fun e => e.event_id)).Nodup) :
    eventLookup cs = cs.map (fun e => (e.event_id, e)) := by
  have := foldl_eventLookup_fresh cs [] h (by simp)
  simpa [eventLookup] using this

theorem mem_pyDictInsert {β : Type} {q : String × β} {d : List (String × β)} {k : String}
    {v : β} (h : q ∈ pyDictInsert d k v) : q ∈ d ∨ q.2 = v := by
  unfold pyDictInsert at h
  split at h
  · rcases List.mem_map.mp h with ⟨p, hp, he⟩
    by_cases hk : p.1 == k
    · right; rw [if_pos hk] at he; rw [← he]
    · left; rw [if_neg hk] at he; rw [← he]; exact hp
  · rcases List.mem_append.mp h with h' | h'
    · exact Or.inl h'
    · right
      rw [List.mem_singleton.mp h']

theorem mem_eventLookup_value {cs : List EventResult} {q : String × EventResult} :
    ∀ acc : List (String × EventResult),
      q ∈ cs.foldl (fun d e => pyDictInsert d e.event_id e) acc →
      q ∈ acc ∨ q.2 ∈ cs := by
  induction cs with
  | nil => intro acc h; exact Or.inl (by simpa using h)
  | cons e rest ih =>
    intro acc h
    rw [List.foldl_cons] at h
    rcases ih (pyDictInsert acc e.event_id e) h with h' | h'
    · rcases mem_pyDictInsert h' with h'' | h''
      · exact Or.inl h''
      · exact Or.inr (by rw [h'']; simp)
    · exact Or.inr (by simp [h'])

theorem pyDictInsert_length_le {β : Type} (d : List (String × β)) (k : String) (v : β) :
    (pyDictInsert d k v).length ≤ d.length + 1 := by
  unfold pyDictInsert
  split
  · simp
  · simp

theorem eventLookup_length_le (cs : List EventResult) :
    ∀ acc : List (String × EventResult),
      (cs.foldl (fun d e => pyDictInsert d e.event_id e) acc).length
        ≤ acc.length + cs.length := by
  induction cs with
  | nil => intro acc; simp
  | cons e rest ih =>
    intro acc
    rw [List.foldl_cons]
    calc (rest.foldl (fun d e => pyDictInsert d e.event_id e) (pyDictInsert acc e.event_id e)).length
        ≤ (pyDictInsert acc e.event_id e).length + rest.length := ih _
      _ ≤ acc.length + 1 + rest.length := by
          have := pyDictInsert_length_le acc e.event_id e
          omega
      _ = acc.length + (e :: rest).length := by simp; omega

/-! ## Case analysis of the recommendation agent -/

theorem fallbackScored_length (candidates : List EventResult)
    (weather_map : List (String × Option DailyForecast)) (exc : String) :
    (fallbackScored candidates weather_map exc).length = candidates.length := by
  simp [fallbackScored]

theorem fallbackScored_mem {candidates : List EventResult}
    {weather_map : List (String × Option DailyForecast)} {exc : String}
    {se : ScoredEvent} (h : se ∈ fallbackScored candidates weather_map exc) :
    se.relevance_score = PyFloat.fin 0 ∧ se.score_reason = scoringErrorReason exc ∧
      se.event ∈ candidates := by
  rcases List.mem_map.mp h with ⟨e, he, rfl⟩
  exact ⟨rfl, rfl, he⟩

theorem runT_empty (request : UserRequest) {events_out : EventAgentOutput}
    (weather_out : WeatherAgentOutput) (judge : String → String → Except String String)
    (top_n : Int) (h : events_out.events = []) :
    runRecommendationAgentT request events_out weather_out judge top_n
      = (.ok { request := request, recommendations := [] }, false) := by
  unfold runRecommendationAgentT
  rw [if_pos (by simp [h])]

/-- Every successful run of the agent has one of three shapes: the
zero-candidate short-circuit, the fallback after a judge/parse failure,
or the sorted-and-truncated merge of the parsed score list. -/
theorem runT_ok_cases {request : UserRequest} {events_out : EventAgentOutput}
    {weather_out : WeatherAgentOutput} {judge : String → String → Except String String}
    {top_n : Int} {out : RecommendationAgentOutput} {b : Bool}
    (h : runRecommendationAgentT request events_out weather_out judge top_n = (.ok out, b)) :
    out.request = request ∧
    ((events_out.events = [] ∧ out.recommendations = [] ∧ b = false) ∨
     (∃ exc, out.recommendations =
        pySlice top_n
          (fallbackScored (events_out.events.take LLM_EVENT_LIMIT)
            (buildWeatherMap (events_out.events.take LLM_EVENT_LIMIT) weather_out.forecasts)
            exc)) ∨
     (∃ raw scores_list scores_map scored,
        judge scoringSystemMsg
            (scoringUserMsg request (events_out.events.take LLM_EVENT_LIMIT).length
              (scoringEventsText (events_out.events.take LLM_EVENT_LIMIT)
                weather_out.forecasts)) = .ok raw ∧
        parseScoresJson (String.mk (pyStrip raw.data)) = some scores_list ∧
        buildScoresMap scores_list = .ok scores_map ∧
        mergeScores (eventLookup (events_out.events.take LLM_EVENT_LIMIT)) scores_map
            (buildWeatherMap (events_out.events.take LLM_EVENT_LIMIT)
              weather_out.forecasts) = .ok scored ∧
        out.recommendations = pySlice top_n (sortDesc scored))) := by
  unfold runRecommendationAgentT at h
  by_cases he : events_out.events.isEmpty
  · rw [if_pos he] at h
    simp only [Prod.mk.injEq] at h
    obtain ⟨h1, h2⟩ := h
    have h3 := Except.ok.inj h1
    subst h3
    exact ⟨rfl, Or.inl ⟨by simpa using he, rfl, h2.symm⟩⟩
  · rw [if_neg he] at h
    split at h
    · rename_i exc hj
      simp only [Prod.mk.injEq] at h
      obtain ⟨h1, _⟩ := h
      have h3 := Except.ok.inj h1
      subst h3
      exact ⟨rfl, Or.inr (Or.inl ⟨exc, rfl⟩)⟩
    · rename_i raw hj
      split at h
      · rename_i hp
        simp only [Prod.mk.injEq] at h
        obtain ⟨h1, _⟩ := h
        have h3 := Except.ok.inj h1
        subst h3
        exact ⟨rfl, Or.inr (Or.inl ⟨jsonDecodeErrorMsg, rfl⟩)⟩
      · rename_i scores_list hp
        split at h
        · rename_i exc hm
          simp only [Prod.mk.injEq] at h
          exact absurd h.1 (by simp)
        · rename_i scores_map hm
          split at h
          · rename_i exc hg
            simp only [Prod.mk.injEq] at h
            exact absurd h.1 (by simp)
          · rename_i scored hg
            simp only [Prod.mk.injEq] at h
            obtain ⟨h1, _⟩ := h
            have h3 := Except.ok.inj h1
            subst h3
            exact ⟨rfl, Or.inr (Or.inr ⟨raw, scores_list, scores_map, scored,
              hj, hp, hm, hg, rfl⟩)⟩

theorem exists_of_forall₂_mem {α β : Type} {R : α → β → Prop} {l1 : List α} {l2 : List β}
    (h : List.Forall₂ R l1 l2) : ∀ b ∈ l2, ∃ a ∈ l1, R a b := by
  induction h with
  | nil => intro b hb; exact absurd hb (by simp)
  | cons hr _ ih =>
    intro b hb
    rcases List.mem_cons.mp hb with rfl | hb'
    · exact ⟨_, by simp, hr⟩
    · rcases ih b hb' with ⟨a, ha, har⟩
      exact ⟨a, by simp [ha], har⟩

theorem mergeScores_map_event {lookup : List (String × EventResult)}
    {scores_map : List (Json × Json)} {weather_map : List (String × Option DailyForecast)}
    {scored : List ScoredEvent}
    (h : mergeScores lookup scores_map weather_map = .ok scored) :
    scored.map (fun se => se.event) = lookup.map (fun p => p.2) := by
  have hf := mergeScores_ok_forall₂ h
  clear h
  induction hf with
  | nil => rfl
  | cons hr _ ih => simp [List.map_cons, ih, buildScored_ok_event hr]

theorem pairwise_score_of_const {l : List ScoredEvent}
    (h : ∀ x ∈ l, x.relevance_score = PyFloat.fin 0) :
    l.Pairwise (fun a b => PyFloat.le b.relevance_score a.relevance_score = true) := by
  induction l with
  | nil => exact List.Pairwise.nil
  | cons x xs ih =>
    rw [List.pairwise_cons]
    refine ⟨fun a ha => ?_, ih fun y hy => h y (by simp [hy])⟩
    rw [h a (by simp [ha]), h x (by simp)]
    rfl

theorem buildScored_ok_score {scores_map : List (Json × Json)}
    {weather_map : List (String × Option DailyForecast)} {p : String × EventResult}
    {se : ScoredEvent} (h : buildScored scores_map weather_map p = .ok se) :
    scoreOf (scoreEntryFor scores_map p.1) = .ok se.relevance_score := by
  unfold buildScored at h
  rcases h1 : scoreOf (scoreEntryFor scores_map p.1) with e | score
  · rw [h1] at h; exact absurd h (by simp)
  · rw [h1] at h
    rcases h2 : reasonOf (scoreEntryFor scores_map p.1) with e | reason
    · rw [h2] at h; exact absurd h (by simp)
    · rw [h2] at h
      cases h
      rfl

theorem jdictGet_mem {d : List (Json × Json)} {k v : Json}
    (h : jdictGet d k = some v) : ∃ kk, (kk, v) ∈ d := by
  unfold jdictGet at h
  rcases hf : d.find? (fun p => Json.beq p.1 k) with _ | p
  · rw [hf] at h; exact absurd h (by simp)
  · rw [hf] at h
    simp at h
    refine ⟨p.1, ?_⟩
    rw [← h]
    simpa using List.mem_of_find?_eq_some hf

/-!
# Claim theorems
-/

/-- **C8**: one QA turn (`run_qa_agent`) appends exactly the pair
(user question, produced answer) to the conversation log and returns
the new log, regardless of judge success or failure; three sequential
calls starting from an empty log yield a log of length 6 with roles
alternating user, assistant, user, assistant, user, assistant; and the
returned log's length is even whenever the input log's length is even
(so, starting from the empty log, always). -/
theorem C8_qa_turn_appends_pair :
    (∀ (webSearch : String → String) (judge : List QAMessage → Except String String)
        (qa : QARequest),
      (runQaAgent webSearch judge qa).updated_history
        = qa.conversation_history ++
            [{ role := "user", content := qa.user_question },
             { role := "assistant", content := (runQaAgent webSearch judge qa).answer }]) ∧
    (∀ (webSearch : String → String) (j1 j2 j3 : List QAMessage → Except String String)
        (recs : RecommendationAgentOutput) (q1 q2 q3 : String),
      (((runQaAgent webSearch j3
          { recommendations := recs
            conversation_history :=
              (runQaAgent webSearch j2
                { recommendations := recs
                  conversation_history :=
                    (runQaAgent webSearch j1
                      { recommendations := recs, conversation_history := []
                        user_question := q1 }).updated_history
                  user_question := q2 }).updated_history
            user_question := q3 }).updated_history).map (fun m => m.role)
          = ["user", "assistant", "user", "assistant", "user", "assistant"]) ∧
      ((runQaAgent webSearch j3
          { recommendations := recs
            conversation_history :=
              (runQaAgent webSearch j2
                { recommendations := recs
                  conversation_history :=
                    (runQaAgent webSearch j1
                      { recommendations := recs, conversation_history := []
                        user_question := q1 }).updated_history
                  user_question := q2 }).updated_history
            user_question := q3 }).updated_history).length = 6) ∧
    (∀ (webSearch : String → String) (judge : List QAMessage → Except String String)
        (qa : QARequest),
      Even qa.conversation_history.length →
      Even (runQaAgent webSearch judge qa).updated_history.length) := by
  refine ⟨fun _ _ _ => rfl, ?_, ?_⟩
  · intro ws j1 j2 j3 recs q1 q2 q3
    constructor <;> simp [runQaAgent]
  · intro ws judge qa h
    have hlen : (runQaAgent ws judge qa).updated_history.length
        = qa.conversation_history.length + 2 := by
      simp [runQaAgent]
    rw [hlen]
    rcases h with ⟨m, hm⟩
    exact ⟨m + 1, by omega⟩

/-- Closed witness for C8: a concrete turn with a failing judge
appends exactly the (question, apology) pair, and the even-length
invariant holds at the empty log. -/
theorem C8_qa_turn_appends_pair_witness :
    ((runQaAgent (fun _ => "") (fun _ => Except.error "down")
        { recommendations := { request := sampleRequest, recommendations := [] }
          conversation_history := [], user_question := "Which event is first?" }).updated_history
      = [] ++
          [{ role := "user", content := "Which event is first?" },
           { role := "assistant",
             content := (runQaAgent (fun _ => "") (fun _ => Except.error "down")
               { recommendations := { request := sampleRequest, recommendations := [] }
                 conversation_history := []
                 user_question := "Which event is first?" }).answer }]) ∧
    Even (runQaAgent (fun _ => "") (fun _ => Except.error "down")
        { recommendations := { request := sampleRequest, recommendations := [] }
          conversation_history := [], user_question := "Which event is first?" }).updated_history.length :=
  ⟨C8_qa_turn_appends_pair.1 _ _ _,
   C8_qa_turn_appends_pair.2.2 _ _ _ (by decide)⟩

/-- **C9 counterexample**: for a request whose start date (5) is after
its end date (3), the `/recommend` route submits both collaborator
fetches and returns an ordinary result — it does not reject the request
with a ValidationError before any collaborator call, so the claim as
stated is false on the code. -/
theorem C9_counterexample :
    (recommendRoute (stubEventsAgent []) stubWeatherAgent (fun _ _ => Except.error "e")
        badDatesRequest 6).2 = ["events_agent", "weather_agent"] ∧
    (recommendRoute (stubEventsAgent []) stubWeatherAgent (fun _ _ => Except.error "e")
        badDatesRequest 6).1
      = Except.ok { request := badDatesRequest, recommendations := [] } ∧
    badDatesRequest.end_date < badDatesRequest.start_date :=
  ⟨rfl, rfl, by decide⟩

/-- **C9 (amended)**: the Streamlit search pipeline (`app.py`) rejects
a request whose start date is after its end date before any
collaborator call is made (its recorded collaborator-call list is
empty); the `/recommend` API route, by contrast, performs no
date-order validation and always submits both collaborator fetches
first. -/
theorem C9_amended_validation :
    (∀ (re : UserRequest → EventAgentOutput) (rww : UserRequest → WeatherAgentOutput)
        (judge : String → String → Except String String) (request : UserRequest)
        (top_n : Int),
      request.end_date < request.start_date →
      appSearchPipeline re rww judge request top_n
        = (.error "Start date must be before end date.", [])) ∧
    (∀ (re : UserRequest → EventAgentOutput) (rww : UserRequest → WeatherAgentOutput)
        (judge : String → String → Except String String) (request : UserRequest)
        (top_n : Int),
      (recommendRoute re rww judge request top_n).2 = ["events_agent", "weather_agent"]) := by
  constructor
  · intro re rww judge request top_n h
    unfold appSearchPipeline
    rw [if_pos h]
  · intro re rww judge request top_n
    simp only [recommendRoute]
    split <;> rfl

/-- Closed witness for the amended C9 at a concrete malformed request. -/
theorem C9_amended_validation_witness :
    appSearchPipeline (stubEventsAgent []) stubWeatherAgent (fun _ _ => Except.error "e")
        badDatesRequest 6 = (.error "Start date must be before end date.", []) ∧
    badDatesRequest.end_date < badDatesRequest.start_date :=
  ⟨C9_amended_validation.1 _ _ _ _ _ (by decide), by decide⟩

/-- **C10**: the recommendation stage returns at most 50 ScoredEvents
(`LLM_EVENT_LIMIT`) whatever top-N is requested; every returned
ScoredEvent's event comes from the first 50 collected candidates; and
the whole stage — including the scoring prompt it builds — is a
function of the first 50 candidates only: replacing the collected
event list by its first 50 elements leaves the result (and hence the
prompt-visible behaviour) unchanged. -/
theorem C10_llm_event_limit :
    (∀ (request : UserRequest) (events_out : EventAgentOutput)
        (weather_out : WeatherAgentOutput) (judge : String → String → Except String String)
        (top_n : Int) (out : RecommendationAgentOutput) (b : Bool),
      runRecommendationAgentT request events_out weather_out judge top_n = (.ok out, b) →
      out.recommendations.length ≤ 50 ∧
      ∀ se ∈ out.recommendations, se.event ∈ events_out.events.take LLM_EVENT_LIMIT) ∧
    (∀ (request : UserRequest) (events_out : EventAgentOutput)
        (weather_out : WeatherAgentOutput) (judge : String → String → Except String String)
        (top_n : Int),
      runRecommendationAgentT request events_out weather_out judge top_n
        = runRecommendationAgentT request
            { events_out with events := events_out.events.take LLM_EVENT_LIMIT }
            weather_out judge top_n) := by
  constructor
  · intro request events_out weather_out judge top_n out b h
    have hcap : (events_out.events.take LLM_EVENT_LIMIT).length ≤ 50 := by
      rw [List.length_take]
      exact min_le_left _ _
    rcases (runT_ok_cases h).2 with ⟨_, hrec, _⟩ | ⟨exc, hrec⟩ | ⟨raw, sl, sm, scored, _, _, _, hg, hrec⟩
    · rw [hrec]
      exact ⟨by simp, by simp⟩
    · rw [hrec]
      constructor
      · calc (pySlice top_n (fallbackScored _ _ exc)).length
            ≤ (fallbackScored (events_out.events.take LLM_EVENT_LIMIT)
                (buildWeatherMap (events_out.events.take LLM_EVENT_LIMIT)
                  weather_out.forecasts) exc).length := pySlice_length_le _ _
          _ = (events_out.events.take LLM_EVENT_LIMIT).length := fallbackScored_length _ _ _
          _ ≤ 50 := hcap
      · intro se hse
        exact (fallbackScored_mem (pySlice_subset _ _ se hse)).2.2
    · rw [hrec]
      have hlen : scored.length = (eventLookup (events_out.events.take LLM_EVENT_LIMIT)).length :=
        ((mergeScores_ok_forall₂ hg).length_eq).symm
      constructor
      · calc (pySlice top_n (sortDesc scored)).length
            ≤ (sortDesc scored).length := pySlice_length_le _ _
          _ = scored.length := length_sortDesc _
          _ = (eventLookup (events_out.events.take LLM_EVENT_LIMIT)).length := hlen
          _ ≤ 0 + (events_out.events.take LLM_EVENT_LIMIT).length :=
              eventLookup_length_le _ []
          _ ≤ 50 := by omega
      · intro se hse
        have hse2 : se ∈ scored :=
          (sortDesc_perm scored).subset (pySlice_subset _ _ se hse)
        rcases exists_of_forall₂_mem (mergeScores_ok_forall₂ hg) se hse2 with ⟨p, hp, hbs⟩
        rcases mem_eventLookup_value [] hp with hfalse | hv
        · exact absurd hfalse (by simp)
        · rw [buildScored_ok_event hbs]
          exact hv
  · intro request events_out weather_out judge top_n
    have h1 : (events_out.events.take LLM_EVENT_LIMIT).take LLM_EVENT_LIMIT
        = events_out.events.take LLM_EVENT_LIMIT := by
      rw [List.take_take, min_self]
    have h2 : (events_out.events.take LLM_EVENT_LIMIT).isEmpty = events_out.events.isEmpty := by
      cases events_out.events <;> simp [LLM_EVENT_LIMIT]
    unfold runRecommendationAgentT
    simp only [h1, h2]

/-- Closed witness for C10 at a concrete successful run. -/
theorem C10_llm_event_limit_witness :
    (runRecommendationAgentT sampleRequest (sampleEventsOut [mkSampleEvent "e1" "A"])
          sampleWeatherOut (fun _ _ => Except.ok "[]") 6
        = (Except.ok { request := sampleRequest
                       recommendations := [notScoredEntry (mkSampleEvent "e1" "A")] }, true)) ∧
    ([notScoredEntry (mkSampleEvent "e1" "A")] : List ScoredEvent).length ≤ 50 ∧
    ∀ se ∈ ([notScoredEntry (mkSampleEvent "e1" "A")] : List ScoredEvent),
      se.event ∈ (sampleEventsOut [mkSampleEvent "e1" "A"]).events.take LLM_EVENT_LIMIT := by
  have hrun : runRecommendationAgentT sampleRequest (sampleEventsOut [mkSampleEvent "e1" "A"])
      sampleWeatherOut (fun _ _ => Except.ok "[]") 6
      = (Except.ok { request := sampleRequest
                     recommendations := [notScoredEntry (mkSampleEvent "e1" "A")] }, true) := by
    rfl
  have h := C10_llm_event_limit.1 sampleRequest (sampleEventsOut [mkSampleEvent "e1" "A"])
    sampleWeatherOut (fun _ _ => Except.ok "[]") 6 _ _ hrun
  exact ⟨hrun, h.1, h.2⟩

/-- **C6 counterexample**: with one candidate and `top_n = -1` (an int
the `/recommend` route accepts), Python's `scored[:top_n]` drops the
last element, so the result is empty while `min(top_n, 1) = -1`; the
claimed bound `len ≤ min(top_n, number_of_candidates)` is false at
this input. -/
theorem C6_counterexample :
    (runRecommendationAgentT sampleRequest (sampleEventsOut [mkSampleEvent "e1" "A"])
        sampleWeatherOut (fun _ _ => Except.ok "[]") (-1)
      = (Except.ok { request := sampleRequest, recommendations := [] }, true)) ∧
    ¬((([] : List ScoredEvent).length : Int)
        ≤ min (-1) ((sampleEventsOut [mkSampleEvent "e1" "A"]).events.length : Int)) :=
  ⟨rfl, by decide⟩

/-- **C6 (amended)**: for every nonnegative `top_n`, the returned
recommendation list has length at most `min top_n
(number of collected candidates)`; and with zero candidates the agent
returns the empty RecommendationSet without ever calling the judge
(the judge-called flag is `false`).  For negative `top_n` the Python
slice `scored[:top_n]` counts from the end instead, breaking the
original bound. -/
theorem C6_amended_topn_bound :
    (∀ (request : UserRequest) (events_out : EventAgentOutput)
        (weather_out : WeatherAgentOutput) (judge : String → String → Except String String)
        (top_n : Int) (out : RecommendationAgentOutput) (b : Bool),
      0 ≤ top_n →
      runRecommendationAgentT request events_out weather_out judge top_n = (.ok out, b) →
      (out.recommendations.length : Int) ≤ min top_n (events_out.events.length : Int)) ∧
    (∀ (request : UserRequest) (events_out : EventAgentOutput)
        (weather_out : WeatherAgentOutput) (judge : String → String → Except String String)
        (top_n : Int),
      events_out.events = [] →
      runRecommendationAgentT request events_out weather_out judge top_n
        = (.ok { request := request, recommendations := [] }, false)) := by
  constructor
  · intro request events_out weather_out judge top_n out b htop h
    have hcap : (events_out.events.take LLM_EVENT_LIMIT).length ≤ events_out.events.length := by
      rw [List.length_take]
      exact min_le_right _ _
    rcases (runT_ok_cases h).2 with ⟨_, hrec, _⟩ | ⟨exc, hrec⟩ |
      ⟨raw, sl, sm, scored, _, _, _, hg, hrec⟩
    · rw [hrec]
      simp only [List.length_nil, Nat.cast_zero]
      omega
    · rw [hrec]
      have h1 := pySlice_length_le_toNat htop
        (fallbackScored (events_out.events.take LLM_EVENT_LIMIT)
          (buildWeatherMap (events_out.events.take LLM_EVENT_LIMIT) weather_out.forecasts) exc)
      have h2 := pySlice_length_le top_n
        (fallbackScored (events_out.events.take LLM_EVENT_LIMIT)
          (buildWeatherMap (events_out.events.take LLM_EVENT_LIMIT) weather_out.forecasts) exc)
      rw [fallbackScored_length] at h2
      have h3 := hcap
      omega
    · rw [hrec]
      have h1 := pySlice_length_le_toNat htop (sortDesc scored)
      have h2 := pySlice_length_le top_n (sortDesc scored)
      have h3 := length_sortDesc scored
      have h4 : scored.length = (eventLookup (events_out.events.take LLM_EVENT_LIMIT)).length :=
        ((mergeScores_ok_forall₂ hg).length_eq).symm
      have h5 : (eventLookup (events_out.events.take LLM_EVENT_LIMIT)).length
          ≤ (events_out.events.take LLM_EVENT_LIMIT).length := by
        have := eventLookup_length_le (events_out.events.take LLM_EVENT_LIMIT) []
        simpa [eventLookup] using this
      omega
  · intro request events_out weather_out judge top_n h
    exact runT_empty request weather_out judge top_n h

/-- Closed witness for the amended C6 at a successful concrete run. -/
theorem C6_amended_topn_bound_witness :
    (0 : Int) ≤ 6 ∧
    (runRecommendationAgentT sampleRequest (sampleEventsOut [mkSampleEvent "e1" "A"])
        sampleWeatherOut (fun _ _ => Except.ok "[]") 6).1
      = Except.ok { request := sampleRequest
                    recommendations := [notScoredEntry (mkSampleEvent "e1" "A")] } ∧
    (([notScoredEntry (mkSampleEvent "e1" "A")].length : Int))
      ≤ min 6 ((sampleEventsOut [mkSampleEvent "e1" "A"]).events.length : Int) := by
  have hrun : runRecommendationAgentT sampleRequest (sampleEventsOut [mkSampleEvent "e1" "A"])
      sampleWeatherOut (fun _ _ => Except.ok "[]") 6
      = (Except.ok { request := sampleRequest
                     recommendations := [notScoredEntry (mkSampleEvent "e1" "A")] }, true) := by
    rfl
  refine ⟨by decide, by rw [hrun], ?_⟩
  exact C6_amended_topn_bound.1 sampleRequest (sampleEventsOut [mkSampleEvent "e1" "A"])
    sampleWeatherOut (fun _ _ => Except.ok "[]") 6 _ _ (by decide) hrun

/-- **C5 counterexample**: `json.loads` accepts the `NaN` constant and
`float(nan)` succeeds, so a judge reply scoring the first candidate
`NaN` and the second `50` yields the returned list `[nan, 50]` — every
IEEE comparison against `nan` is false, Python's stable sort leaves
the pair in place, and the result is not sorted non-increasing: the
claim as stated is false on the code. -/
theorem C5_counterexample :
    runRecommendationAgent sampleRequest
        (sampleEventsOut [mkSampleEvent "e1" "A", mkSampleEvent "e2" "B"])
        sampleWeatherOut
        (fun _ _ =>
          Except.ok
            "[\x7b\"event_id\":\"e1\",\"score\":NaN,\"reason\":\"n\"\x7d,\x7b\"event_id\":\"e2\",\"score\":50,\"reason\":\"y\"\x7d]")
        6
      = Except.ok { request := sampleRequest
                    recommendations :=
                      [{ event := mkSampleEvent "e1" "A", weather := none
                         relevance_score := PyFloat.nan, score_reason := "n" },
                       { event := mkSampleEvent "e2" "B", weather := none
                         relevance_score := PyFloat.fin 50, score_reason := "y" }] } ∧
    ¬ ([{ event := mkSampleEvent "e1" "A", weather := none
          relevance_score := PyFloat.nan, score_reason := "n" },
        { event := mkSampleEvent "e2" "B", weather := none
          relevance_score := PyFloat.fin 50, score_reason := "y" }] :
          List ScoredEvent).Pairwise
        (fun a c => PyFloat.le c.relevance_score a.relevance_score = true) := by
  refine ⟨rfl, fun h => ?_⟩
  have h1 := (List.pairwise_cons.mp h).1
    { event := mkSampleEvent "e2" "B", weather := none
      relevance_score := PyFloat.fin 50, score_reason := "y" } (by simp)
  exact absurd h1 (by decide)

/-- **C5 (amended)**: when every score value carried by the sanitized
score map is not `nan` (as any spec-conforming judge reply satisfies),
every returned recommendation list is sorted non-increasing by
relevance score; unconditionally, the sort is the stable descending
sort (a permutation under which, for every score value, the
equal-scored elements keep exactly their pre-sort relative order), and
the pre-sort list follows the candidates' original collection order —
its events are the `event_lookup` values in order, which with distinct
event ids are exactly the candidates in collection order.  A `NaN`
produced by the judge makes the key comparisons inconsistent and the
returned order unspecified. -/
theorem C5_amended_sorted_stable :
    (∀ (request : UserRequest) (events_out : EventAgentOutput)
        (weather_out : WeatherAgentOutput) (judge : String → String → Except String String)
        (top_n : Int) (out : RecommendationAgentOutput) (b : Bool),
      runRecommendationAgentT request events_out weather_out judge top_n = (.ok out, b) →
      (∀ raw scores_list scores_map,
        judge scoringSystemMsg
            (scoringUserMsg request (events_out.events.take LLM_EVENT_LIMIT).length
              (scoringEventsText (events_out.events.take LLM_EVENT_LIMIT)
                weather_out.forecasts)) = .ok raw →
        parseScoresJson (String.mk (pyStrip raw.data)) = some scores_list →
        buildScoresMap scores_list = .ok scores_map →
        ∀ p ∈ scores_map, ∀ q : PyFloat, scoreOf p.2 = .ok q → q ≠ PyFloat.nan) →
      out.recommendations.Pairwise
        (fun a c => PyFloat.le c.relevance_score a.relevance_score = true)) ∧
    (∀ l : List ScoredEvent,
      List.Perm (sortDesc l) l ∧
      ∀ s : PyFloat,
        (sortDesc l).filter (fun e => decide (e.relevance_score = s))
          = l.filter (fun e => decide (e.relevance_score = s))) ∧
    (∀ (lookup : List (String × EventResult)) (scores_map : List (Json × Json))
        (weather_map : List (String × Option DailyForecast)) (scored : List ScoredEvent),
      mergeScores lookup scores_map weather_map = .ok scored →
      scored.map (fun se => se.event) = lookup.map (fun p => p.2)) ∧
    (∀ candidates : List EventResult,
      (candidates.map (fun e => e.event_id)).Nodup →
      (eventLookup candidates).map (fun p => p.2) = candidates) := by
  refine ⟨?_, ?_, ?_, ?_⟩
  · intro request events_out weather_out judge top_n out b h hscore
    rcases (runT_ok_cases h).2 with ⟨_, hrec, _⟩ | ⟨exc, hrec⟩ |
      ⟨raw, scores_list, scores_map, scored, hj, hp, hm, hg, hrec⟩
    · rw [hrec]; exact List.Pairwise.nil
    · rw [hrec]
      refine pySlice_pairwise (pairwise_score_of_const ?_) top_n
      intro x hx
      exact (fallbackScored_mem hx).1
    · rw [hrec]
      refine pySlice_pairwise (sortDesc_pairwise ?_) top_n
      intro se hse
      rcases exists_of_forall₂_mem (mergeScores_ok_forall₂ hg) se hse with ⟨p, hpl, hb⟩
      have hs := buildScored_ok_score hb
      unfold scoreEntryFor at hs
      rcases hd : jdictGet scores_map (Json.str p.1) with _ | item
      · rw [hd] at hs
        have hs0 : (Except.ok (PyFloat.fin 0) : Except String PyFloat)
            = .ok se.relevance_score := hs
        rw [← Except.ok.inj hs0]
        exact fun hc => PyFloat.noConfusion hc
      · rw [hd] at hs
        have hs1 : scoreOf item = .ok se.relevance_score := hs
        rcases jdictGet_mem hd with ⟨kk, hkk⟩
        exact hscore raw scores_list scores_map hj hp hm (kk, item) hkk
          se.relevance_score hs1
  · intro l
    exact ⟨sortDesc_perm l, sortDesc_filter_stable l⟩
  · intro lookup scores_map weather_map scored h
    exact mergeScores_map_event h
  · intro candidates h
    rw [eventLookup_of_nodup h, List.map_map]
    exact List.map_id candidates

/-- Closed witness for the amended C5: a concrete `nan`-free run with
two tied candidates is returned sorted (both scored 0) and in
collection order. -/
theorem C5_amended_sorted_stable_witness :
    (runRecommendationAgentT sampleRequest
        (sampleEventsOut [mkSampleEvent "e1" "A", mkSampleEvent "e2" "B"])
        sampleWeatherOut (fun _ _ => Except.ok "[]") 6).1
      = Except.ok { request := sampleRequest
                    recommendations := [notScoredEntry (mkSampleEvent "e1" "A"),
                                        notScoredEntry (mkSampleEvent "e2" "B")] } ∧
    ([notScoredEntry (mkSampleEvent "e1" "A"),
      notScoredEntry (mkSampleEvent "e2" "B")] : List ScoredEvent).Pairwise
        (fun a c => PyFloat.le c.relevance_score a.relevance_score = true) := by
  have hrun : runRecommendationAgentT sampleRequest
      (sampleEventsOut [mkSampleEvent "e1" "A", mkSampleEvent "e2" "B"])
      sampleWeatherOut (fun _ _ => Except.ok "[]") 6
      = (Except.ok { request := sampleRequest
                     recommendations := [notScoredEntry (mkSampleEvent "e1" "A"),
                                         notScoredEntry (mkSampleEvent "e2" "B")] }, true) := by
    rfl
  refine ⟨by rw [hrun], ?_⟩
  refine C5_amended_sorted_stable.1 sampleRequest
    (sampleEventsOut [mkSampleEvent "e1" "A", mkSampleEvent "e2" "B"])
    sampleWeatherOut (fun _ _ => Except.ok "[]") 6 _ _ hrun ?_
  intro raw scores_list scores_map h1 h2 h3 p hp q hq
  have h1a : Except.ok "[]" = Except.ok raw := h1
  cases Except.ok.inj h1a
  have h2a : some (Json.arr []) = some scores_list := h2
  cases Option.some.inj h2a
  have h3a : (Except.ok [] : Except String (List (Json × Json))) = .ok scores_map := h3
  cases Except.ok.inj h3a
  exact absurd hp (by simp)

/-- **C7 counterexample**: the judge call succeeds with the parseable
reply `[{}]`, but the subsequent score-list processing
(`scores_map = {item["event_id"]: item for item in scores_list}`, line
194, outside the `try`) raises `KeyError`, which propagates to the
caller instead of being absorbed into a fallback RecommendationSet —
so the claim as stated is false at this input. -/
theorem C7_counterexample :
    runRecommendationAgent sampleRequest (sampleEventsOut [mkSampleEvent "e1" "A"])
        sampleWeatherOut (fun _ _ => Except.ok "[\x7b\x7d]") 6
      = Except.error "KeyError" := rfl

/-- **C7 (amended)**: when the judge call fails, or when its reply is
unrecoverable by the sanitizer (the parse raises), the agent never
propagates the exception: it returns a RecommendationSet in which
every candidate receives the same fixed score 0 and a rationale
embedding the failure ("Scoring error: ...").  An exception raised in
the later score-list processing (a parsed entry that is not an object
with an `event_id` key, or a bad `score`/`reason` value) still
propagates. -/
theorem C7_amended_fallback :
    (∀ (request : UserRequest) (events_out : EventAgentOutput)
        (weather_out : WeatherAgentOutput) (judge : String → String → Except String String)
        (top_n : Int) (exc : String),
      events_out.events.isEmpty = false →
      judge scoringSystemMsg
          (scoringUserMsg request (events_out.events.take LLM_EVENT_LIMIT).length
            (scoringEventsText (events_out.events.take LLM_EVENT_LIMIT)
              weather_out.forecasts)) = .error exc →
      runRecommendationAgentT request events_out weather_out judge top_n
          = (.ok { request := request
                   recommendations :=
                     pySlice top_n
                       (fallbackScored (events_out.events.take LLM_EVENT_LIMIT)
                         (buildWeatherMap (events_out.events.take LLM_EVENT_LIMIT)
                           weather_out.forecasts) exc) }, true) ∧
      ∀ se ∈ pySlice top_n
          (fallbackScored (events_out.events.take LLM_EVENT_LIMIT)
            (buildWeatherMap (events_out.events.take LLM_EVENT_LIMIT)
              weather_out.forecasts) exc),
        se.relevance_score = PyFloat.fin 0 ∧ se.score_reason = scoringErrorReason exc) ∧
    (∀ (request : UserRequest) (events_out : EventAgentOutput)
        (weather_out : WeatherAgentOutput) (judge : String → String → Except String String)
        (top_n : Int) (raw : String),
      events_out.events.isEmpty = false →
      judge scoringSystemMsg
          (scoringUserMsg request (events_out.events.take LLM_EVENT_LIMIT).length
            (scoringEventsText (events_out.events.take LLM_EVENT_LIMIT)
              weather_out.forecasts)) = .ok raw →
      parseScoresJson (String.mk (pyStrip raw.data)) = none →
      runRecommendationAgentT request events_out weather_out judge top_n
          = (.ok { request := request
                   recommendations :=
                     pySlice top_n
                       (fallbackScored (events_out.events.take LLM_EVENT_LIMIT)
                         (buildWeatherMap (events_out.events.take LLM_EVENT_LIMIT)
                           weather_out.forecasts) jsonDecodeErrorMsg) }, true) ∧
      ∀ se ∈ pySlice top_n
          (fallbackScored (events_out.events.take LLM_EVENT_LIMIT)
            (buildWeatherMap (events_out.events.take LLM_EVENT_LIMIT)
              weather_out.forecasts) jsonDecodeErrorMsg),
        se.relevance_score = PyFloat.fin 0 ∧ se.score_reason = scoringErrorReason jsonDecodeErrorMsg) := by
  constructor
  · intro request events_out weather_out judge top_n exc he hj
    constructor
    · unfold runRecommendationAgentT
      rw [if_neg (by simp [he]), hj]
    · intro se hse
      have h := fallbackScored_mem (pySlice_subset _ _ se hse)
      exact ⟨h.1, h.2.1⟩
  · intro request events_out weather_out judge top_n raw he hj hp
    constructor
    · unfold runRecommendationAgentT
      rw [if_neg (by simp [he]), hj]
      simp only [hp]
    · intro se hse
      have h := fallbackScored_mem (pySlice_subset _ _ se hse)
      exact ⟨h.1, h.2.1⟩

/-- Closed witness for the amended C7 at a failing judge. -/
theorem C7_amended_fallback_witness :
    runRecommendationAgentT sampleRequest (sampleEventsOut [mkSampleEvent "e1" "A"])
        sampleWeatherOut (fun _ _ => Except.error "boom") 6
      = (Except.ok { request := sampleRequest
                     recommendations :=
                       pySlice 6
                         (fallbackScored
                           ((sampleEventsOut [mkSampleEvent "e1" "A"]).events.take
                             LLM_EVENT_LIMIT)
                           (buildWeatherMap
                             ((sampleEventsOut [mkSampleEvent "e1" "A"]).events.take
                               LLM_EVENT_LIMIT)
                             sampleWeatherOut.forecasts) "boom") }, true) ∧
    ∀ se ∈ pySlice 6
        (fallbackScored
          ((sampleEventsOut [mkSampleEvent "e1" "A"]).events.take LLM_EVENT_LIMIT)
          (buildWeatherMap
            ((sampleEventsOut [mkSampleEvent "e1" "A"]).events.take LLM_EVENT_LIMIT)
            sampleWeatherOut.forecasts) "boom"),
      se.relevance_score = PyFloat.fin 0 ∧ se.score_reason = scoringErrorReason "boom" :=
  C7_amended_fallback.1 sampleRequest (sampleEventsOut [mkSampleEvent "e1" "A"])
    sampleWeatherOut (fun _ _ => Except.error "boom") 6 "boom" (by decide) rfl

/-- **C3 counterexample**: two candidates sharing the id `"d"` collapse
to a single `event_lookup` entry (line 193), so the returned
RecommendationSet holds one ScoredEvent for two candidates — the
claimed "number of ScoredEvents built is exactly the number of
candidates" fails. -/
theorem C3_counterexample :
    runRecommendationAgent sampleRequest
        (sampleEventsOut [mkSampleEvent "d" "A", mkSampleEvent "d" "B"])
        sampleWeatherOut (fun _ _ => Except.ok "[]") 6
      = Except.ok { request := sampleRequest
                    recommendations := [notScoredEntry (mkSampleEvent "d" "B")] } ∧
    (sampleEventsOut [mkSampleEvent "d" "A", mkSampleEvent "d" "B"]).events.length = 2 ∧
    [notScoredEntry (mkSampleEvent "d" "B")].length ≠ 2 :=
  ⟨rfl, rfl, by decide⟩

/-- **C3 (amended)**: when the candidate ids are pairwise distinct, the
merge loop builds exactly one ScoredEvent per candidate, in candidate
order; a candidate with no matching score-list entry gets score 0 and
the rationale "Not scored by LLM" without error; within a present
entry a missing `score` field is treated as 0 and a missing `reason`
field as the empty placeholder, never as an error.  (With duplicate
ids the count drops to the number of distinct ids.) -/
theorem C3_amended_ranker_defaults :
    (∀ (candidates : List EventResult) (scores_map : List (Json × Json))
        (weather_map : List (String × Option DailyForecast)) (scored : List ScoredEvent),
      (candidates.map (fun e => e.event_id)).Nodup →
      mergeScores (eventLookup candidates) scores_map weather_map = .ok scored →
      scored.map (fun se => se.event) = candidates ∧ scored.length = candidates.length) ∧
    (∀ (scores_map : List (Json × Json))
        (weather_map : List (String × Option DailyForecast)) (e : EventResult),
      jdictGet scores_map (Json.str e.event_id) = none →
      buildScored scores_map weather_map (e.event_id, e)
        = .ok { event := e
                weather := (pyDictGet weather_map e.event_id).join
                relevance_score := PyFloat.fin 0
                score_reason := "Not scored by LLM" }) ∧
    (∀ fields : List (String × Json), jsonObjGet fields "score" = none →
      scoreOf (Json.obj fields) = .ok (PyFloat.fin 0)) ∧
    (∀ fields : List (String × Json), jsonObjGet fields "reason" = none →
      reasonOf (Json.obj fields) = .ok "") := by
  refine ⟨?_, ?_, ?_, ?_⟩
  · intro candidates scores_map weather_map scored hnd hm
    rw [eventLookup_of_nodup hnd] at hm
    have hmap := mergeScores_map_event hm
    rw [List.map_map] at hmap
    have hc : scored.map (fun se => se.event) = candidates := by
      rw [hmap]; exact List.map_id candidates
    refine ⟨hc, ?_⟩
    have := congrArg List.length hc
    simpa using this
  · intro scores_map weather_map e h
    unfold buildScored scoreEntryFor
    rw [h]
    rfl
  · intro fields h
    have hs : scoreOf (Json.obj fields)
        = pyFloat ((jsonObjGet fields "score").getD (Json.num "0")) := rfl
    rw [hs, h]
    rfl
  · intro fields h
    have hr : reasonOf (Json.obj fields)
        = (match (jsonObjGet fields "reason").getD (Json.str "") with
           | Json.str s => Except.ok s
           | _ => Except.error "ValidationError") := rfl
    rw [hr, h]
    rfl

/-- Closed witness for the amended C3: one unscored candidate with a
fresh id yields exactly one defaulted ScoredEvent. -/
theorem C3_amended_ranker_defaults_witness :
    [notScoredEntry (mkSampleEvent "a" "A")].map (fun se => se.event)
        = [mkSampleEvent "a" "A"] ∧
    [notScoredEntry (mkSampleEvent "a" "A")].length = [mkSampleEvent "a" "A"].length :=
  C3_amended_ranker_defaults.1 [mkSampleEvent "a" "A"] [] []
    [notScoredEntry (mkSampleEvent "a" "A")] (by decide) rfl

/-- **C4 counterexample**: the code never clamps
`float(score_data.get("score", 0))` (line 202), so a judge reply
scoring an event at 150 yields a returned ScoredEvent with
`relevance_score = 150 > 100` — the claimed invariant
`0 ≤ relevance_score ≤ 100` fails. -/
theorem C4_counterexample :
    runRecommendationAgent sampleRequest (sampleEventsOut [mkSampleEvent "e1" "A"])
        sampleWeatherOut
        (fun _ _ =>
          Except.ok "[\x7b\"event_id\":\"e1\",\"score\":150,\"reason\":\"big\"\x7d]") 6
      = Except.ok { request := sampleRequest
                    recommendations :=
                      [{ event := mkSampleEvent "e1" "A", weather := none
                         relevance_score := PyFloat.fin 150, score_reason := "big" }] } ∧
    ¬(PyFloat.le (PyFloat.fin 150) (PyFloat.fin 100) = true) :=
  ⟨rfl, by decide⟩

/-- **C4 (amended)**: the range invariant holds exactly when the judge
is trusted to stay in range: if every score value carried by the
sanitized score map lies in `[0, 100]`, then every ScoredEvent of every
returned RecommendationSet satisfies `0 ≤ relevance_score ≤ 100` (the
empty short-circuit, the fallback scores 0, and the "Not scored by
LLM" default 0 all lie in range); without that assumption the code
passes judge scores through unclamped. -/
theorem C4_amended_score_range :
    ∀ (request : UserRequest) (events_out : EventAgentOutput)
      (weather_out : WeatherAgentOutput) (judge : String → String → Except String String)
      (top_n : Int) (out : RecommendationAgentOutput) (b : Bool),
      runRecommendationAgentT request events_out weather_out judge top_n = (.ok out, b) →
      (∀ raw scores_list scores_map,
        judge scoringSystemMsg
            (scoringUserMsg request (events_out.events.take LLM_EVENT_LIMIT).length
              (scoringEventsText (events_out.events.take LLM_EVENT_LIMIT)
                weather_out.forecasts)) = .ok raw →
        parseScoresJson (String.mk (pyStrip raw.data)) = some scores_list →
        buildScoresMap scores_list = .ok scores_map →
        ∀ p ∈ scores_map, ∀ q : PyFloat, scoreOf p.2 = .ok q →
          PyFloat.le (PyFloat.fin 0) q = true ∧ PyFloat.le q (PyFloat.fin 100) = true) →
      ∀ se ∈ out.recommendations,
        PyFloat.le (PyFloat.fin 0) se.relevance_score = true ∧
          PyFloat.le se.relevance_score (PyFloat.fin 100) = true := by
  intro request events_out weather_out judge top_n out b hrun hscore se hse
  rcases (runT_ok_cases hrun).2 with ⟨_, hrec, _⟩ | ⟨exc, hrec⟩ |
    ⟨raw, scores_list, scores_map, scored, hj, hp, hm, hg, hrec⟩
  · rw [hrec] at hse
    exact absurd hse (by simp)
  · rw [hrec] at hse
    have h0 := fallbackScored_mem (pySlice_subset _ _ se hse)
    rw [h0.1]
    exact ⟨by decide, by decide⟩
  · rw [hrec] at hse
    have hse2 : se ∈ sortDesc scored := pySlice_subset _ _ se hse
    have hse3 : se ∈ scored := (sortDesc_perm scored).mem_iff.mp hse2
    rcases exists_of_forall₂_mem (mergeScores_ok_forall₂ hg) se hse3 with ⟨p, hpl, hb⟩
    have hs := buildScored_ok_score hb
    unfold scoreEntryFor at hs
    rcases hd : jdictGet scores_map (Json.str p.1) with _ | item
    · rw [hd] at hs
      have hs0 : (Except.ok (PyFloat.fin 0) : Except String PyFloat)
          = .ok se.relevance_score := hs
      rw [← Except.ok.inj hs0]
      exact ⟨by decide, by decide⟩
    · rw [hd] at hs
      have hs1 : scoreOf item = .ok se.relevance_score := hs
      rcases jdictGet_mem hd with ⟨kk, hkk⟩
      exact hscore raw scores_list scores_map hj hp hm (kk, item) hkk
        se.relevance_score hs1

/-- Closed witness for the amended C4: a judge answering `[]` scores
nothing, the sole candidate defaults to 0, and 0 ∈ [0, 100]. -/
theorem C4_amended_score_range_witness :
    PyFloat.le (PyFloat.fin 0) (notScoredEntry (mkSampleEvent "e1" "A")).relevance_score
        = true ∧
      PyFloat.le (notScoredEntry (mkSampleEvent "e1" "A")).relevance_score (PyFloat.fin 100)
        = true := by
  refine C4_amended_score_range sampleRequest (sampleEventsOut [mkSampleEvent "e1" "A"])
    sampleWeatherOut (fun _ _ => Except.ok "[]") 6
    { request := sampleRequest
      recommendations := [notScoredEntry (mkSampleEvent "e1" "A")] } true rfl ?_
    (notScoredEntry (mkSampleEvent "e1" "A")) (by simp)
  intro raw scores_list scores_map h1 h2 h3 p hp q hq
  have h1a : Except.ok "[]" = Except.ok raw := h1
  cases Except.ok.inj h1a
  have h2a : some (Json.arr []) = some scores_list := h2
  cases Option.some.inj h2a
  have h3a : (Except.ok [] : Except String (List (Json × Json))) = .ok scores_map := h3
  cases Except.ok.inj h3a
  exact absurd hp (by simp)

/-- **C2**: on the reply cut mid-object
`[\x7b"id":"a","score":10,"reason":"x"\x7d,\x7b"id":"b","score":5,"rea`
the sanitizer does not raise and recovers exactly the array holding the
first complete object; and in general, whenever the fence-stripped text
contains an opening `[` but no `]` at all, the sanitizer drops the
dangling incomplete trailing object, strips trailing separators,
appends a synthetic `]`, and removes trailing commas before parsing. -/
theorem C2_truncation_recovery :
    (parseScoresJson
        "[\x7b\"id\":\"a\",\"score\":10,\"reason\":\"x\"\x7d,\x7b\"id\":\"b\",\"score\":5,\"rea"
      = some (Json.arr [Json.obj
          [("id", Json.str "a"), ("score", Json.num "10"), ("reason", Json.str "x")]])) ∧
    (∀ (cs0 : List Char) (i : Nat),
      firstIdxOf '[' (pyStrip (stripTrailingFence (stripLeadingFence (pyStrip cs0))))
        = some i →
      lastIdxOf ']' (pyStrip (stripTrailingFence (stripLeadingFence (pyStrip cs0))))
        = none →
      repairJsonText cs0 =
        removeTrailingCommas
          (rstripSep (dropIncompleteTail
              ((pyStrip (stripTrailingFence (stripLeadingFence (pyStrip cs0)))).drop i))
            ++ [']'])) := by
  constructor
  · rfl
  · intro cs0 i h1 h2
    unfold repairJsonText
    rw [repairSlice_of_trunc h1 h2]

/-- Closed witness for C2's general truncation branch at the claimed
concrete input. -/
theorem C2_truncation_recovery_witness :
    repairJsonText
        "[\x7b\"id\":\"a\",\"score\":10,\"reason\":\"x\"\x7d,\x7b\"id\":\"b\",\"score\":5,\"rea".data
      = removeTrailingCommas
          (rstripSep (dropIncompleteTail
              ((pyStrip (stripTrailingFence (stripLeadingFence (pyStrip
                "[\x7b\"id\":\"a\",\"score\":10,\"reason\":\"x\"\x7d,\x7b\"id\":\"b\",\"score\":5,\"rea".data)))).drop 0))
            ++ [']']) :=
  C2_truncation_recovery.2
    "[\x7b\"id\":\"a\",\"score\":10,\"reason\":\"x\"\x7d,\x7b\"id\":\"b\",\"score\":5,\"rea".data
    0 rfl rfl

/-- **C1 counterexample**: the trailing-comma substitution
`re.sub(r",\s*([\x7d\]])", ...)` is textual and blind to string
literals, so for the well-formed array `[\x7b"id":"x, ]"\x7d]` —
whose only string value contains `, ]` — the sanitizer applied to the
fenced text with an inserted trailing comma returns an array whose
string value was mangled to `x]`, while strict parsing of the clean
text keeps `x, ]`: the claimed round-trip fails. -/
theorem C1_counterexample :
    parseScoresJson (wrapJudge "[\x7b\"id\":\"x, ]\"\x7d]")
      = some (Json.arr [Json.obj [("id", Json.str "x]")]]) ∧
    pyJsonLoads "[\x7b\"id\":\"x, ]\"\x7d]".data
      = some (Json.arr [Json.obj [("id", Json.str "x, ]")]]) ∧
    (Json.arr [Json.obj [("id", Json.str "x]")]]
      ≠ Json.arr [Json.obj [("id", Json.str "x, ]")]]) :=
  ⟨rfl, rfl, by decide⟩

/-- **C1 (amended)**: the round-trip does hold for every *clean* array
— one whose number literals are well-formed and whose strings (keys and
values) render without a comma followed, after optional whitespace, by
`\x7d` or `]`.  For such arrays the sanitizer's text repair undoes the
code fence and the inserted trailing comma exactly, and sanitizing the
wrapped text parses to precisely what strict parsing of the clean
unwrapped text yields. -/
theorem C1_amended_roundtrip :
    ∀ l : List Json,
      cleanJson (Json.arr l) = true →
      repairJsonText ((wrapJudge (String.mk (render (Json.arr l)))).data)
        = render (Json.arr l) ∧
      parseScoresJson (wrapJudge (String.mk (render (Json.arr l))))
        = pyJsonLoads (render (Json.arr l)) := by
  intro l hc
  have hr := repair_wrapJudge_render l hc
  refine ⟨hr, ?_⟩
  unfold parseScoresJson
  rw [hr]

/-- Closed witness for the amended C1 at a one-object array. -/
theorem C1_amended_roundtrip_witness :
    repairJsonText ((wrapJudge (String.mk (render
        (Json.arr [Json.obj [("id", Json.str "a")]])))).data)
      = render (Json.arr [Json.obj [("id", Json.str "a")]]) ∧
    parseScoresJson (wrapJudge (String.mk (render
        (Json.arr [Json.obj [("id", Json.str "a")]]))))
      = pyJsonLoads (render (Json.arr [Json.obj [("id", Json.str "a")]])) :=
  C1_amended_roundtrip [Json.obj [("id", Json.str "a")]] (by decide)

end EventScout
